import Mathlib

/-!
Verification development for the Sparkle retail back-office server
(src/server/app). The Python code of the inventory ledger and transaction
engine is shallowly embedded: each FastAPI endpoint body becomes a pure Lean
function over an explicit database state, SQLAlchemy commits become the point
where the returned state is produced, and a raised exception becomes an error
value (the request's session is discarded without commit, so on error the
persisted database is the unchanged input state).

Modelling conventions:
- Python floats and SQL Numeric columns are modelled as exact rationals (Rat);
  the code under study only performs +, -, *, / and comparisons on decimal
  inputs, for which Rat agrees with the intended decimal arithmetic.
- Python strings are modelled as lists of characters (PyStr), so that strip,
  lower and replace admit direct structural definitions and proofs.
- UUIDs are modelled as natural numbers.
- Timestamps are modelled as an abstract Nat passed in by the caller.
-/

namespace Sparkle

attribute [local semireducible] Rat.add Rat.mul Rat.sub Rat.inv

/-- Python strings, modelled as character lists. -/
abbrev PyStr := List Char

/-- Coerce a Lean string literal to the PyStr model. -/
def pystr (s : String) : PyStr := s.data

/-- Whitespace characters removed by Python str.strip (ASCII subset). -/
def isPySpace (c : Char) : Bool := c = ' ' ∨ c = '\t' ∨ c = '\n' ∨ c = '\r'

/-- Python str.strip: remove leading and trailing whitespace. -/
def pyStrip (s : PyStr) : PyStr :=
  ((s.dropWhile isPySpace).reverse.dropWhile isPySpace).reverse

/-- Python str.lower (character-wise, as used on ASCII header/name text). -/
def pyLower (s : PyStr) : PyStr := s.map Char.toLower

/-- Python str.replace for single characters; used for the comma-to-dot
substitution in the bulk-import numeric parser. -/
def pyReplaceCommaDot (s : PyStr) : PyStr :=
  s.map (fun c => if c = ',' then '.' else c)

/-- ASCII decimal digit test. -/
def isDigitChar (c : Char) : Bool := 48 ≤ c.toNat ∧ c.toNat ≤ 57

/-- Numeric value of an ASCII digit. -/
def digitValue (c : Char) : Nat := c.toNat - 48

/-- Core of Python float() on a sign-free body: digits with at most one dot,
at least one digit, nothing else. (The exponent, underscore, and inf/nan
forms of the Python grammar never occur in the inputs this system feeds to
float() and are not modelled; any such input is simply rejected here.)
Arguments: remaining characters, seen-a-digit flag, seen-a-dot flag,
accumulated integer value of the digits read, number of digits read after
the dot. -/
def pyFloatAux : PyStr → Bool → Bool → Nat → Nat → Option Rat
  | [], seenDigit, _, num, scale =>
      if seenDigit then some (mkRat (num : Int) (10 ^ scale)) else none
  | c :: cs, seenDigit, seenDot, num, scale =>
      if c = '.' then
        if seenDot then none else pyFloatAux cs seenDigit true num scale
      else if isDigitChar c then
        pyFloatAux cs true seenDot (10 * num + digitValue c)
          (if seenDot then scale + 1 else scale)
      else none

/-- Python float() on an already stripped string: optional sign followed by
the decimal body. -/
def pyFloatOf (s : PyStr) : Option Rat :=
  match s with
  | [] => pyFloatAux [] false false 0 0
  | c :: rest =>
    if c = '-' then (pyFloatAux rest false false 0 0).map Rat.neg
    else if c = '+' then pyFloatAux rest false false 0 0
    else pyFloatAux (c :: rest) false false 0 0

/-- parse_float from import_inventory_csv (src/server/app/api/v1/inventory.py):
if the value is absent or empty return the default, otherwise strip it,
replace every comma by a dot, and attempt a float parse, falling back to the
default on failure. Note the source applies the comma-to-dot substitution
unconditionally; it never attempts a straight parse first. -/
def parse_float (value : Option PyStr) (dflt : Option Rat) : Option Rat :=
  match value with
  | none => dflt
  | some s =>
      if s = [] then dflt
      else
        match pyFloatOf (pyReplaceCommaDot (pyStrip s)) with
        | some q => some q
        | none => dflt

/-- Python truthiness of an optional float: None and 0.0 are falsy. -/
def pyTruthyRat (o : Option Rat) : Bool :=
  match o with
  | none => false
  | some x => ¬ (x = 0)

/-- Python expression a-or-b on optional numbers: falsy (absent or zero)
falls through to the alternative. -/
def pyOrRat (o : Option Rat) (d : Rat) : Rat :=
  match o with
  | none => d
  | some x => if x = 0 then d else x

/-- Python expression a-or-b on optional strings: absent or empty falls
through to the alternative. -/
def pyOrStr (o : Option PyStr) (d : PyStr) : PyStr :=
  match o with
  | none => d
  | some s => if s = [] then d else s

/-- Python expression value-or-None on optional strings, as in
row.get("barcode") or None: empty becomes None. -/
def pyOrNone (o : Option PyStr) : Option PyStr :=
  match o with
  | none => none
  | some s => if s = [] then none else some s

/-- Decidable equality for Except values, used to state concrete endpoint
outcomes. -/
instance {ε α : Type} [DecidableEq ε] [DecidableEq α] : DecidableEq (Except ε α) := by
  intro x y
  cases x <;> cases y
  case error.error e f =>
    exact if h : e = f then isTrue (by rw [h]) else isFalse (by intro hc; cases hc; exact h rfl)
  case error.ok e a => exact isFalse (by intro hc; cases hc)
  case ok.error a e => exact isFalse (by intro hc; cases hc)
  case ok.ok a b =>
    exact if h : a = b then isTrue (by rw [h]) else isFalse (by intro hc; cases hc; exact h rfl)

/-! ## Data model (src/server/app/models) -/

/-- Database identifiers (UUIDs in the source). -/
abbrev Id := Nat

/-- MovementType from app/models/inventory.py. -/
inductive MovementType where
  | purchase
  | sale
  | returnIn
  | returnOut
  | adjustment
  | transferIn
  | transferOut
  | damage
  | expired
  | count
deriving DecidableEq

/-- InventoryItem from app/models/inventory.py, restricted to the columns the
inventory ledger and transaction engine reads or writes. -/
structure InventoryItem where
  id : Id
  sku : PyStr
  barcode : Option PyStr
  name : PyStr
  description : Option PyStr
  category_id : Option Id
  location_id : Id
  supplier_id : Option Id
  current_stock : Rat
  reserved_stock : Rat
  min_stock_level : Option Rat
  max_stock_level : Option Rat
  reorder_point : Option Rat
  reorder_quantity : Option Rat
  cost_price : Option Rat
  selling_price : Rat
  tax_rate : Rat
  unit : PyStr
  is_active : Bool
  is_taxable : Bool
  allow_negative_stock : Bool
deriving DecidableEq

/-- StockMovement from app/models/inventory.py (timestamps and expiry dates,
which no claim touches, are omitted). -/
structure StockMovement where
  item_id : Id
  movement_type : MovementType
  quantity : Rat
  unit_cost : Option Rat
  stock_before : Rat
  stock_after : Rat
  reference_type : Option PyStr
  reference_id : Option Id
  notes : Option PyStr
  batch_number : Option PyStr
  performed_by : Option Id
deriving DecidableEq

/-- LoyaltyTier from app/models/customer.py. -/
inductive LoyaltyTier where
  | bronze
  | silver
  | gold
  | platinum
  | diamond
deriving DecidableEq

/-- Customer from app/models/customer.py, restricted to the loyalty and
analytics columns touched by the sales endpoints. -/
structure Customer where
  id : Id
  loyalty_tier : LoyaltyTier
  loyalty_points : Int
  lifetime_points : Int
  total_purchases : Nat
  total_spent : Rat
  average_order_value : Rat
deriving DecidableEq

/-- Customer._update_tier from app/models/customer.py. -/
def updateTier (c : Customer) : Customer :=
  if c.lifetime_points ≥ 50000 then { c with loyalty_tier := .diamond }
  else if c.lifetime_points ≥ 15000 then { c with loyalty_tier := .platinum }
  else if c.lifetime_points ≥ 5000 then { c with loyalty_tier := .gold }
  else if c.lifetime_points ≥ 1000 then { c with loyalty_tier := .silver }
  else { c with loyalty_tier := .bronze }

/-- Customer.add_points from app/models/customer.py. -/
def add_points (c : Customer) (points : Int) : Customer :=
  updateTier { c with
    loyalty_points := c.loyalty_points + points,
    lifetime_points := c.lifetime_points + points }

/-- Customer.redeem_points from app/models/customer.py: None signals the
False return (insufficient balance), in which case nothing changes. -/
def redeem_points (c : Customer) (points : Int) : Option Customer :=
  if points > c.loyalty_points then none
  else some { c with loyalty_points := c.loyalty_points - points }

/-- SaleStatus from app/models/sales.py. -/
inductive SaleStatus where
  | pending
  | completed
  | voided
  | refunded
  | partialRefund
deriving DecidableEq

/-- PaymentMethod from app/models/sales.py. -/
inductive PaymentMethod where
  | cash
  | card
  | transfer
  | mobile
  | credit
  | split
deriving DecidableEq

/-- SaleItem from app/models/sales.py. -/
structure SaleItem where
  item_id : Id
  sku : PyStr
  name : PyStr
  quantity : Rat
  unit_price : Rat
  cost_price : Option Rat
  discount_percent : Rat
  discount_amount : Rat
  tax_rate : Rat
  tax_amount : Rat
  line_total : Rat
deriving DecidableEq

/-- Sale from app/models/sales.py, restricted to the columns the sales
endpoints read or write (receipt number, terminal, sync flags and free-text
fields are omitted). -/
structure Sale where
  id : Id
  location_id : Id
  customer_id : Option Id
  subtotal : Rat
  tax_amount : Rat
  discount_amount : Rat
  total_amount : Rat
  payment_method : PaymentMethod
  amount_tendered : Option Rat
  change_given : Option Rat
  status : SaleStatus
  points_earned : Int
  points_redeemed : Int
  items : List SaleItem
deriving DecidableEq

/-- POStatus from app/models/purchase_order.py (the source value named
"partial" is rendered partialReceipt here). -/
inductive POStatus where
  | pending
  | ordered
  | received
  | cancelled
  | partialReceipt
deriving DecidableEq

/-- PurchaseOrderItem from app/models/purchase_order.py. -/
structure PurchaseOrderItem where
  item_id : Id
  quantity : Rat
  received_quantity : Rat
  unit_cost : Rat
deriving DecidableEq

/-- PurchaseOrder from app/models/purchase_order.py; received and expected
dates are modelled as abstract Nat timestamps. -/
structure PurchaseOrder where
  id : Id
  order_number : PyStr
  supplier_id : Id
  status : POStatus
  items : List PurchaseOrderItem
  received_date : Option Nat
  expected_date : Option Nat
  notes : Option PyStr
deriving DecidableEq

/-- Location from app/models/location.py (only id and name are read by the
code under study). -/
structure Location where
  id : Id
  name : PyStr
deriving DecidableEq

/-- Category from app/models/inventory.py (only id and name are read). -/
structure Category where
  id : Id
  name : PyStr
deriving DecidableEq

/-- Supplier from app/models/supplier.py (only id and name are read). -/
structure Supplier where
  id : Id
  name : PyStr
deriving DecidableEq

/-- The persisted database state: the tables the inventory ledger and
transaction engine touches. The movements table is append-only. -/
structure Db where
  items : List InventoryItem
  movements : List StockMovement
  customers : List Customer
  sales : List Sale
  purchase_orders : List PurchaseOrder
  locations : List Location
  categories : List Category
  suppliers : List Supplier
deriving DecidableEq

/-- SELECT InventoryItem WHERE id = i (first match). -/
def findItem (db : Db) (i : Id) : Option InventoryItem :=
  db.items.find? (fun it => it.id == i)

/-- The current_stock of item i, when the item exists. -/
def itemStock (db : Db) (i : Id) : Option Rat :=
  (findItem db i).map InventoryItem.current_stock

/-- Write back a mutated item row (ORM identity update: every row with the
same id takes the new value; ids are unique in any reachable database). -/
def setItem (db : Db) (it : InventoryItem) : Db :=
  { db with items := db.items.map (fun x => if x.id == it.id then it else x) }

/-- Append one row to the stock_movements audit table. -/
def addMovement (db : Db) (m : StockMovement) : Db :=
  { db with movements := db.movements ++ [m] }

/-- SELECT Customer WHERE id = i (first match). -/
def findCustomer (db : Db) (i : Id) : Option Customer :=
  db.customers.find? (fun c => c.id == i)

/-- Write back a mutated customer row. -/
def setCustomer (db : Db) (c : Customer) : Db :=
  { db with customers := db.customers.map (fun x => if x.id == c.id then c else x) }

/-- SELECT Sale WHERE id = i (first match). -/
def findSale (db : Db) (i : Id) : Option Sale :=
  db.sales.find? (fun s => s.id == i)

/-- Write back a mutated sale row. -/
def setSale (db : Db) (s : Sale) : Db :=
  { db with sales := db.sales.map (fun x => if x.id == s.id then s else x) }

/-- SELECT PurchaseOrder WHERE id = i (first match). -/
def findPO (db : Db) (i : Id) : Option PurchaseOrder :=
  db.purchase_orders.find? (fun p => p.id == i)

/-- Write back a mutated purchase order row. -/
def setPO (db : Db) (p : PurchaseOrder) : Db :=
  { db with purchase_orders := db.purchase_orders.map (fun x => if x.id == p.id then p else x) }

/-! ## Stock adjustment (adjust_stock, src/server/app/api/v1/inventory.py) -/

/-- StockAdjustment request schema from app/schemas/inventory.py. -/
structure StockAdjustment where
  item_id : Id
  quantity : Rat
  movement_type : MovementType
  notes : Option PyStr
  batch_number : Option PyStr
  unit_cost : Option Rat
deriving DecidableEq

/-- Error outcomes of adjust_stock; each constructor corresponds to one
raise site in the endpoint. The insufficientStock constructor carries the
current stock and requested quantity the source interpolates into its
message. -/
inductive AdjustError where
  | itemIdMismatch
  | itemNotFound
  | insufficientStock (current : Rat) (requested : Rat)
deriving DecidableEq

/-- adjust_stock endpoint (src/server/app/api/v1/inventory.py lines 309-357).
A raised exception aborts the request before the single commit, leaving the
persisted database unchanged; accordingly the error branches carry no state. -/
def adjust_stock (db : Db) (item_id : Id) (req : StockAdjustment) (user_id : Id) :
    Except AdjustError (Db × StockMovement) :=
  if req.item_id ≠ item_id then .error .itemIdMismatch
  else
    match findItem db item_id with
    | none => .error .itemNotFound
    | some item =>
      let stock_before := item.current_stock
      let new_stock := stock_before + req.quantity
      if new_stock < 0 ∧ item.allow_negative_stock = false then
        .error (.insufficientStock stock_before req.quantity)
      else
        let movement : StockMovement :=
          { item_id := item_id
            movement_type := req.movement_type
            quantity := req.quantity
            unit_cost := req.unit_cost
            stock_before := stock_before
            stock_after := new_stock
            reference_type := none
            reference_id := none
            notes := req.notes
            batch_number := req.batch_number
            performed_by := some user_id }
        .ok (addMovement (setItem db { item with current_stock := new_stock }) movement, movement)

/-- The persisted database after an adjust_stock call: the committed state on
success, the untouched input state when the request aborted with an error. -/
def dbAfterAdjust (db : Db) (item_id : Id) (req : StockAdjustment) (user_id : Id) : Db :=
  match adjust_stock db item_id req user_id with
  | .ok (db', _) => db'
  | .error _ => db

/-! ## Sales (create_sale and void_sale, src/server/app/api/v1/sales.py) -/

/-- SaleItemCreate request schema from app/schemas/sales.py. -/
structure SaleItemCreate where
  item_id : Id
  quantity : Rat
  unit_price : Rat
  discount_percent : Rat
  discount_amount : Rat
deriving DecidableEq

/-- SaleCreate request schema from app/schemas/sales.py (offline-sync and
free-text fields, which the claims never touch, are omitted). -/
structure SaleCreate where
  location_id : Id
  customer_id : Option Id
  items : List SaleItemCreate
  discount_amount : Rat
  payment_method : PaymentMethod
  amount_tendered : Option Rat
  points_redeemed : Int
deriving DecidableEq

/-- Error outcomes of the sales endpoints; each constructor corresponds to
one raise site. The insufficientStock constructor carries the offending
item's name and available quantity the source interpolates into its
message. -/
inductive SaleError where
  | itemNotFound (item_id : Id)
  | insufficientStock (itemName : PyStr) (available : Rat)
  | amountTenderedLessThanTotal
  | insufficientLoyaltyPoints
  | saleNotFound
  | alreadyVoided
deriving DecidableEq

/-- The state threaded through create_sale's per-line loop: the session
database plus the accumulators sale_items, subtotal and total_tax. -/
structure LineState where
  db : Db
  sale_items : List SaleItem
  subtotal : Rat
  total_tax : Rat
deriving DecidableEq

/-- One iteration of create_sale's per-line loop (sales.py lines 137-202):
resolve the item, check available stock, compute line totals, deduct stock
and record a sale movement. -/
def processSaleLine (user_id : Id) (st : LineState) (line : SaleItemCreate) :
    Except SaleError LineState :=
  match findItem st.db line.item_id with
  | none => .error (.itemNotFound line.item_id)
  | some inv =>
    let available := inv.current_stock - inv.reserved_stock
    if line.quantity > available ∧ inv.allow_negative_stock = false then
      .error (.insufficientStock inv.name available)
    else
      let line_subtotal := line.quantity * line.unit_price
      let line_discount := line.discount_amount + line_subtotal * line.discount_percent / 100
      let line_taxable := line_subtotal - line_discount
      let line_tax := if inv.is_taxable then line_taxable * inv.tax_rate / 100 else 0
      let line_total := line_taxable + line_tax
      let sale_item : SaleItem :=
        { item_id := inv.id
          sku := inv.sku
          name := inv.name
          quantity := line.quantity
          unit_price := line.unit_price
          cost_price := inv.cost_price
          discount_percent := line.discount_percent
          discount_amount := line_discount
          tax_rate := inv.tax_rate
          tax_amount := line_tax
          line_total := line_total }
      let stock_before := inv.current_stock
      let inv' := { inv with current_stock := stock_before - line.quantity }
      let movement : StockMovement :=
        { item_id := inv.id
          movement_type := .sale
          quantity := -line.quantity
          unit_cost := none
          stock_before := stock_before
          stock_after := inv'.current_stock
          reference_type := none
          reference_id := none
          notes := none
          batch_number := none
          performed_by := some user_id }
      .ok { db := addMovement (setItem st.db inv') movement
            sale_items := st.sale_items ++ [sale_item]
            subtotal := st.subtotal + line_subtotal
            total_tax := st.total_tax + line_tax }

/-- create_sale's per-line loop: the first failing line aborts the whole
request. -/
def processSaleLines (user_id : Id) : LineState → List SaleItemCreate → Except SaleError LineState
  | st, [] => .ok st
  | st, line :: rest =>
    match processSaleLine user_id st line with
    | .error e => .error e
    | .ok st' => processSaleLines user_id st' rest

/-- The cash-tender stage of create_sale (sales.py lines 206-210): the check
runs only when amount_tendered is truthy (Python: None and 0.0 are falsy)
and the method is cash; it fails when the change would be negative. -/
def saleChangeRes (req : SaleCreate) (total_amount : Rat) : Except SaleError (Option Rat) :=
  if pyTruthyRat req.amount_tendered ∧ req.payment_method = .cash then
    match req.amount_tendered with
    | some t =>
      if t - total_amount < 0 then .error .amountTenderedLessThanTotal
      else .ok (some (t - total_amount))
    | none => .ok none
  else .ok none

/-- The loyalty stage of create_sale (sales.py lines 215-237): when a
customer is attached and found, award floor(total/100) points, redeem the
requested points (failing when the balance is short), and update the
purchase aggregates. Returns the database and the earned points. -/
def saleLoyaltyRes (d : Db) (req : SaleCreate) (total_amount : Rat) :
    Except SaleError (Db × Int) :=
  match req.customer_id with
  | none => .ok (d, 0)
  | some cid =>
    match findCustomer d cid with
    | none => .ok (d, 0)
    | some customer =>
      let points_earned := (total_amount / 100).floor
      let customer := add_points customer points_earned
      match
        (if req.points_redeemed > 0 then
          match redeem_points customer req.points_redeemed with
          | none => .error SaleError.insufficientLoyaltyPoints
          | some c => .ok c
        else .ok customer : Except SaleError Customer) with
      | .error e => .error e
      | .ok customer =>
        let customer :=
          { customer with
            total_purchases := customer.total_purchases + 1
            total_spent := customer.total_spent + total_amount }
        let customer :=
          { customer with
            average_order_value := customer.total_spent / (customer.total_purchases : Rat) }
        .ok (setCustomer d customer, points_earned)

/-- create_sale endpoint (src/server/app/api/v1/sales.py lines 115-274).
Mirrors the source order: per-line stock checks and deductions, totals, the
cash-tender check, loyalty handling, then the sale row. The single commit
sits at the end, so every error branch leaves the persisted database
unchanged. -/
def create_sale (db : Db) (req : SaleCreate) (user_id : Id) (sale_id : Id) :
    Except SaleError (Db × Sale) :=
  match processSaleLines user_id { db := db, sale_items := [], subtotal := 0, total_tax := 0 } req.items with
  | .error e => .error e
  | .ok st =>
    let total_amount := st.subtotal - req.discount_amount + st.total_tax
    match saleChangeRes req total_amount with
    | .error e => .error e
    | .ok change_given =>
      match saleLoyaltyRes st.db req total_amount with
      | .error e => .error e
      | .ok (db₂, points_earned) =>
        let sale : Sale :=
          { id := sale_id
            location_id := req.location_id
            customer_id := req.customer_id
            subtotal := st.subtotal
            tax_amount := st.total_tax
            discount_amount := req.discount_amount
            total_amount := total_amount
            payment_method := req.payment_method
            amount_tendered := req.amount_tendered
            change_given := change_given
            status := .completed
            points_earned := points_earned
            points_redeemed := req.points_redeemed
            items := st.sale_items }
        .ok ({ db₂ with sales := db₂.sales ++ [sale] }, sale)

/-- The persisted database after a create_sale call: committed on success,
unchanged when the request aborted with an error. -/
def dbAfterSale (db : Db) (req : SaleCreate) (user_id : Id) (sale_id : Id) : Db :=
  match create_sale db req user_id sale_id with
  | .ok (db', _) => db'
  | .error _ => db

/-- One iteration of void_sale's stock-reversal loop (sales.py lines
299-321): credit the line's quantity back and record a return_in movement.
A line whose item row no longer exists is skipped, as in the source. -/
def voidRestockStep (user_id : Id) (sale_id : Id) (d : Db) (si : SaleItem) : Db :=
  match findItem d si.item_id with
  | none => d
  | some inv =>
    let stock_before := inv.current_stock
    let inv' := { inv with current_stock := stock_before + si.quantity }
    let movement : StockMovement :=
      { item_id := inv.id
        movement_type := .returnIn
        quantity := si.quantity
        unit_cost := none
        stock_before := stock_before
        stock_after := inv'.current_stock
        reference_type := some (pystr "sale_void")
        reference_id := some sale_id
        notes := none
        batch_number := none
        performed_by := some user_id }
    addMovement (setItem d inv') movement

/-- The stock-reversal loop of void_sale over all original lines. -/
def voidRestockLines (user_id : Id) (sale : Sale) (d : Db) : Db :=
  sale.items.foldl (voidRestockStep user_id sale.id) d

/-- void_sale endpoint (src/server/app/api/v1/sales.py lines 277-337):
reject a second void, credit every line's quantity back, subtract the earned
points from the customer (no clamping in the source), and mark the sale
void. -/
def void_sale (db : Db) (sale_id : Id) (user_id : Id) : Except SaleError (Db × Sale) :=
  match findSale db sale_id with
  | none => .error .saleNotFound
  | some sale =>
    if sale.status = .voided then .error .alreadyVoided
    else
      let db₁ := voidRestockLines user_id sale db
      let db₂ :=
        match sale.customer_id with
        | none => db₁
        | some cid =>
          if sale.points_earned > 0 then
            match findCustomer db₁ cid with
            | none => db₁
            | some customer =>
              setCustomer db₁
                { customer with
                  loyalty_points := customer.loyalty_points - sale.points_earned
                  lifetime_points := customer.lifetime_points - sale.points_earned }
          else db₁
      let sale' := { sale with status := .voided }
      .ok (setSale db₂ sale', sale')

/-- The persisted database after a void_sale call. -/
def dbAfterVoid (db : Db) (sale_id : Id) (user_id : Id) : Db :=
  match void_sale db sale_id user_id with
  | .ok (db', _) => db'
  | .error _ => db

/-! ## Purchase orders (src/server/app/api/v1/purchase_orders.py) -/

/-- PurchaseOrderUpdate request schema from app/schemas/purchase_order.py. -/
structure PurchaseOrderUpdate where
  supplier_id : Option Id
  status : Option POStatus
  expected_date : Option Nat
  notes : Option PyStr
deriving DecidableEq

/-- Error outcomes of update_purchase_order. -/
inductive POError where
  | notFound
  | cannotUpdateReceived
deriving DecidableEq

/-- The purchase movement one received line records (purchase_orders.py
lines 185-197). -/
def receiveMovement (user_id : Id) (po_id : Id) (order_number : PyStr)
    (inv : InventoryItem) (li : PurchaseOrderItem) : StockMovement :=
  { item_id := inv.id
    movement_type := .purchase
    quantity := li.quantity
    unit_cost := some li.unit_cost
    stock_before := inv.current_stock
    stock_after := inv.current_stock + li.quantity
    reference_type := some (pystr "purchase_order")
    reference_id := some po_id
    notes := some (pystr "Received PO " ++ order_number)
    batch_number := none
    performed_by := some user_id }

/-- The receipt loop of update_purchase_order (purchase_orders.py lines
171-197): per line, credit the ordered quantity to the item, set the line's
received_quantity, and record a purchase movement referencing the order.
The inventory_item relationship is a non-nullable foreign key, so the
missing-item branch is unreachable on a well-formed database; it is modelled
as skipping the line. Returns the updated database and lines. -/
def receive_po_lines (user_id : Id) (po_id : Id) (order_number : PyStr) :
    Db → List PurchaseOrderItem → Db × List PurchaseOrderItem
  | d, [] => (d, [])
  | d, li :: rest =>
    match findItem d li.item_id with
    | none =>
      let (d', rest') := receive_po_lines user_id po_id order_number d rest
      (d', li :: rest')
    | some inv =>
      let inv' := { inv with current_stock := inv.current_stock + li.quantity }
      let li' := { li with received_quantity := li.quantity }
      let d₁ := addMovement (setItem d inv') (receiveMovement user_id po_id order_number inv li)
      let (d', rest') := receive_po_lines user_id po_id order_number d₁ rest
      (d', li' :: rest')

/-- update_purchase_order endpoint (src/server/app/api/v1/purchase_orders.py
lines 137-208): a received order rejects every update; a status change into
received runs the receipt loop and stamps received_date; notes, expected
date and supplier are updated when present. -/
def update_purchase_order (db : Db) (po_id : Id) (upd : PurchaseOrderUpdate)
    (user_id : Id) (now : Nat) : Except POError (Db × PurchaseOrder) :=
  match findPO db po_id with
  | none => .error .notFound
  | some po =>
    if po.status = .received then .error .cannotUpdateReceived
    else
      let (db₁, po₁) :=
        match upd.status with
        | none => (db, po)
        | some newStatus =>
          let previous_status := po.status
          let po' := { po with status := newStatus }
          if po'.status = POStatus.received ∧ previous_status ≠ POStatus.received then
            let po'' := { po' with received_date := some now }
            let (d', items') := receive_po_lines user_id po.id po.order_number db po.items
            (d', { po'' with items := items' })
          else (db, po')
      let po₂ :=
        { po₁ with
          notes := (match upd.notes with | some n => some n | none => po₁.notes)
          expected_date := (match upd.expected_date with | some e => some e | none => po₁.expected_date)
          supplier_id := (match upd.supplier_id with | some s => s | none => po₁.supplier_id) }
      .ok (setPO db₁ po₂, po₂)

/-- The persisted database after an update_purchase_order call. -/
def dbAfterPOUpdate (db : Db) (po_id : Id) (upd : PurchaseOrderUpdate)
    (user_id : Id) (now : Nat) : Db :=
  match update_purchase_order db po_id upd user_id now with
  | .ok (db', _) => db'
  | .error _ => db

/-- A reorder suggestion line, from the PurchaseOrderItemCreate schema the
endpoint returns. -/
structure POItemSuggestion where
  item_id : Id
  quantity : Rat
  unit_cost : Rat
deriving DecidableEq

/-- The WHERE clause of suggest_po_items' query. Under SQL three-valued
logic, current_stock <= reorder_point is not satisfied when reorder_point is
NULL, so items without a reorder point are never selected. -/
def suggestFilter (supplier_id : Id) (it : InventoryItem) : Bool :=
  (it.supplier_id == some supplier_id) && it.is_active &&
    (match it.reorder_point with
     | some rp => decide (it.current_stock ≤ rp)
     | none => false)

/-- The pydantic ValidationError raised when constructing a
PurchaseOrderItemCreate whose unit_cost fails the schema's gt=0 Field
constraint (app/schemas/purchase_order.py line 20); FastAPI surfaces it as a
500, not a suggestion list. -/
inductive SuggestError where
  | validationError
deriving DecidableEq

/-- The loop-local qty_to_order computation of suggest_po_items
(purchase_orders.py lines 254-263). -/
def qty_to_order (it : InventoryItem) : Rat :=
  match it.max_stock_level with
  | some m => m - it.current_stock
  | none =>
    match it.reorder_quantity with
    | some rq => rq
    | none => pyOrRat it.reorder_point 10 * 2

/-- The suggestion loop of suggest_po_items (purchase_orders.py lines
252-268), over the rows the query returned. Each appended element is a
PurchaseOrderItemCreate: pydantic validates on construction, so a
unit_cost of Decimal(str(cost_price or 0)) that is not greater than zero —
cost_price None, zero or negative — raises instead of appending (the
quantity gt=0 constraint is already guaranteed by the guard). -/
def suggestLoop : List InventoryItem → Except SuggestError (List POItemSuggestion)
  | [] => .ok []
  | it :: rest =>
    if qty_to_order it > 0 then
      if pyOrRat it.cost_price 0 ≤ 0 then .error .validationError
      else
        match suggestLoop rest with
        | .ok tail =>
          .ok ({ item_id := it.id, quantity := qty_to_order it,
                 unit_cost := pyOrRat it.cost_price 0 } :: tail)
        | .error e => .error e
    else suggestLoop rest

/-- suggest_po_items endpoint (src/server/app/api/v1/purchase_orders.py
lines 232-270): the suggestion list, or the validation error the first
cost-less selected item raises. -/
def suggest_po_items (db : Db) (supplier_id : Id) :
    Except SuggestError (List POItemSuggestion) :=
  suggestLoop (db.items.filter (suggestFilter supplier_id))

/-! ## Bulk CSV export and import (src/server/app/api/v1/inventory.py)

The byte and CSV framing layers (encoding cascade, quoting, header
normalization) are not modelled: rows enter and leave as the structured
dictionaries csv.DictReader produces after the source has lower-cased and
trimmed the header names. A cell is None when its column is absent and the
raw cell text otherwise. The required-column check of the source is a
precondition of this row-level model. -/

/-- One CSV row keyed by the normalized header names the source expects. -/
structure CsvRow where
  sku : Option PyStr
  barcode : Option PyStr
  name : Option PyStr
  description : Option PyStr
  category : Option PyStr
  location : Option PyStr
  supplier : Option PyStr
  stock : Option PyStr
  min_stock : Option PyStr
  cost_price : Option PyStr
  selling_price : Option PyStr
  unit : Option PyStr
deriving DecidableEq

/-- row.get(key, "") - a missing cell reads as the empty string. -/
def cellGetD (o : Option PyStr) : PyStr := o.getD []

/-- row.values() in column order. -/
def rowCells (r : CsvRow) : List (Option PyStr) :=
  [r.sku, r.barcode, r.name, r.description, r.category, r.location,
   r.supplier, r.stock, r.min_stock, r.cost_price, r.selling_price, r.unit]

/-- The source's skip test: a row is blank when no cell is truthy after
stripping. -/
def rowIsBlank (r : CsvRow) : Bool :=
  (rowCells r).all (fun c =>
    match c with
    | none => true
    | some s => pyStrip s = [])

/-- The lower-cased name-to-id dictionaries the importer prefetches.
Python dict comprehensions keep the last entry for a duplicated key, hence
the reversed search. -/
def dictLookupLoc (locs : List Location) (key : PyStr) : Option Id :=
  (locs.reverse.find? (fun l => pyLower l.name == key)).map Location.id

/-- Category name dictionary, as for locations. -/
def dictLookupCat (cats : List Category) (key : PyStr) : Option Id :=
  (cats.reverse.find? (fun c => pyLower c.name == key)).map Category.id

/-- Supplier name dictionary, as for locations. -/
def dictLookupSup (sups : List Supplier) (key : PyStr) : Option Id :=
  (sups.reverse.find? (fun s => pyLower s.name == key)).map Supplier.id

/-- The importer's location resolution (inventory.py lines 590-592):
case-insensitive name lookup when the cell is non-blank, falling back to the
caller's default location. -/
def resolveLocation (locs : List Location) (user_loc : Option Id) (cell : Option PyStr) :
    Option Id :=
  let loc_name := pyLower (pyStrip (cellGetD cell))
  let loc_id0 := if loc_name = [] then none else dictLookupLoc locs loc_name
  match loc_id0 with
  | some l => some l
  | none => user_loc

/-- Row-level error reasons recorded in the errors list; each constructor
corresponds to one errors.append site, carrying what the source
interpolates. -/
inductive RowError where
  | missingSku (row_idx : Nat)
  | missingName (row_idx : Nat)
  | missingSellingPrice (row_idx : Nat)
  | invalidSellingPrice (row_idx : Nat) (text : PyStr)
  | locationNotFound (row_idx : Nat) (text : Option PyStr)
deriving DecidableEq

/-- State threaded through the importer's row loop. -/
structure BulkImportState where
  db : Db
  n_imported : Nat
  n_updated : Nat
  errors : List RowError
deriving DecidableEq

/-- Fresh primary key for an item created by the importer. -/
def freshItemId (db : Db) : Id :=
  db.items.foldl (fun a it => max a it.id) 0 + 1

/-- One iteration of the importer's row loop (inventory.py lines 549-637):
validate SKU, Name and Selling Price, resolve the location with fallback to
the caller's default, resolve optional category and supplier silently, then
update the item with a matching SKU or create a new one. On update, every
field whose parsed value is not None overwrites the stored field, and
barcode and description overwrite unconditionally. -/
def csv_import_row (user_loc : Option Id) (row_idx : Nat) (st : BulkImportState)
    (row : CsvRow) : BulkImportState :=
  if rowIsBlank row then st
  else
    let sku := pyStrip (cellGetD row.sku)
    let name := pyStrip (cellGetD row.name)
    let selling_price_str := pyStrip (cellGetD row.selling_price)
    if sku = [] then { st with errors := st.errors ++ [.missingSku row_idx] }
    else if name = [] then { st with errors := st.errors ++ [.missingName row_idx] }
    else if selling_price_str = [] then
      { st with errors := st.errors ++ [.missingSellingPrice row_idx] }
    else
      match parse_float (some selling_price_str) none with
      | none =>
        { st with errors := st.errors ++ [.invalidSellingPrice row_idx selling_price_str] }
      | some selling_price =>
        if selling_price ≤ 0 then
          { st with errors := st.errors ++ [.invalidSellingPrice row_idx selling_price_str] }
        else
          let cost_price := parse_float row.cost_price none
          match resolveLocation st.db.locations user_loc row.location with
          | none => { st with errors := st.errors ++ [.locationNotFound row_idx row.location] }
          | some lid =>
            let cat_name := pyLower (pyStrip (cellGetD row.category))
            let cat_id := if cat_name = [] then none else dictLookupCat st.db.categories cat_name
            let sup_name := pyLower (pyStrip (cellGetD row.supplier))
            let sup_id := if sup_name = [] then none else dictLookupSup st.db.suppliers sup_name
            let stock_val := (parse_float row.stock (some 0)).getD 0
            let min_stock_val := parse_float row.min_stock none
            let unit_val := pyStrip (pyOrStr row.unit (pystr "pcs"))
            match st.db.items.find? (fun it => it.sku == sku) with
            | some item =>
              let item' :=
                { item with
                  sku := sku
                  barcode := pyOrNone row.barcode
                  name := name
                  description := pyOrNone row.description
                  category_id := (match cat_id with | some c => some c | none => item.category_id)
                  location_id := lid
                  supplier_id := (match sup_id with | some s => some s | none => item.supplier_id)
                  current_stock := stock_val
                  min_stock_level := (match min_stock_val with | some v => some v | none => item.min_stock_level)
                  cost_price := (match cost_price with | some v => some v | none => item.cost_price)
                  selling_price := selling_price
                  unit := unit_val }
              { st with db := setItem st.db item', n_updated := st.n_updated + 1 }
            | none =>
              let item : InventoryItem :=
                { id := freshItemId st.db
                  sku := sku
                  barcode := pyOrNone row.barcode
                  name := name
                  description := pyOrNone row.description
                  category_id := cat_id
                  location_id := lid
                  supplier_id := sup_id
                  current_stock := stock_val
                  reserved_stock := 0
                  min_stock_level := min_stock_val
                  max_stock_level := none
                  reorder_point := none
                  reorder_quantity := none
                  cost_price := cost_price
                  selling_price := selling_price
                  tax_rate := 0
                  unit := unit_val
                  is_active := true
                  is_taxable := true
                  allow_negative_stock := false }
              { st with db := { st.db with items := st.db.items ++ [item] }
                        n_imported := st.n_imported + 1 }

/-- The importer's row loop; DictReader numbers rows from 2 because row 1
holds the headers. -/
def csv_import_rows (user_loc : Option Id) : BulkImportState → Nat → List CsvRow → BulkImportState
  | st, _, [] => st
  | st, idx, r :: rest => csv_import_rows user_loc (csv_import_row user_loc idx st r) (idx + 1) rest

/-- The summary object import_inventory_csv returns. -/
structure BulkImportResult where
  success : Bool
  n_imported : Nat
  n_updated : Nat
  total_processed : Nat
  errors : List RowError
deriving DecidableEq

/-- import_inventory_csv endpoint at the row level (src/server/app/api/v1/
inventory.py lines 481-653): run the row loop from the caller's database and
commit; the final commit is modelled as always succeeding. Returns the
summary and the committed database. -/
def inventory_csv_import (db : Db) (user_loc : Option Id) (rows : List CsvRow) :
    BulkImportResult × Db :=
  let st := csv_import_rows user_loc { db := db, n_imported := 0, n_updated := 0, errors := [] } 2 rows
  ({ success := st.errors = []
     n_imported := st.n_imported
     n_updated := st.n_updated
     total_processed := st.n_imported + st.n_updated
     errors := st.errors }, st.db)

/-! ### Export -/

/-- Fuel-driven loop of the decimal renderer: prepend the digits of n (most
significant first) to the accumulator. Structural in the fuel so that the
kernel can evaluate it on concrete witnesses. -/
def natStrGo : Nat → Nat → PyStr → PyStr
  | 0, _, acc => acc
  | fuel + 1, n, acc =>
    let d := Char.ofNat (48 + n % 10)
    if n < 10 then d :: acc
    else natStrGo fuel (n / 10) (d :: acc)

/-- Decimal rendering of a natural number, most significant digit first
(str of a non-negative integer). -/
def natDigitsStr (n : Nat) : PyStr := natStrGo (n + 1) n []

/-- Fixed-point rendering of an integer count of thousandths with three
fractional digits, matching str() of a scale-3 Decimal column value. -/
def serMilli (n : Int) : PyStr :=
  let a := n.natAbs / 1000
  let b := n.natAbs % 1000
  let frac := natDigitsStr b
  (if n < 0 then ['-'] else []) ++ natDigitsStr a ++ ['.']
    ++ List.replicate (3 - frac.length) '0' ++ frac

/-- Serialization of a stored Numeric column value as csv.writer receives
it. Columns carry at most three fractional digits, for which this is exact. -/
def serRat (q : Rat) : PyStr := serMilli (q * 1000).floor

/-- One exported row of export_inventory_csv (inventory.py lines 397-455):
the inner join resolves the location name, outer joins resolve category and
supplier names with empty-string fallback. -/
def exportRow (db : Db) (it : InventoryItem) (loc : Location) : CsvRow :=
  { sku := some it.sku
    barcode := some (it.barcode.getD [])
    name := some it.name
    description := some (it.description.getD [])
    category := some (((it.category_id.bind (fun cid => (db.categories.find? (fun c => c.id == cid)).map Category.name))).getD [])
    location := some loc.name
    supplier := some (((it.supplier_id.bind (fun sid => (db.suppliers.find? (fun s => s.id == sid)).map Supplier.name))).getD [])
    stock := some (serRat it.current_stock)
    min_stock := some (serRat (pyOrRat it.min_stock_level 0))
    cost_price := some (serRat (pyOrRat it.cost_price 0))
    selling_price := some (serRat it.selling_price)
    unit := some it.unit }

/-- export_inventory_csv endpoint at the row level: one row per active item
in scope, in table order; the inner join on Location drops items whose
location row is missing (impossible on a well-formed database). -/
def inventory_csv_export (db : Db) (loc_filter : Option Id) : List CsvRow :=
  db.items.filterMap (fun it =>
    if it.is_active && (match loc_filter with | some l => it.location_id == l | none => true) then
      match db.locations.find? (fun l => l.id == it.location_id) with
      | none => none
      | some loc => some (exportRow db it loc)
    else none)

/-! ## Concrete fixtures used by witnesses and counterexamples -/

/-- A template inventory item for concrete test databases. -/
def baseItem : InventoryItem :=
  { id := 1
    sku := pystr "SKU-1"
    barcode := none
    name := pystr "Widget A"
    description := none
    category_id := none
    location_id := 1
    supplier_id := none
    current_stock := 100
    reserved_stock := 0
    min_stock_level := none
    max_stock_level := none
    reorder_point := none
    reorder_quantity := none
    cost_price := none
    selling_price := 1000
    tax_rate := 0
    unit := pystr "pcs"
    is_active := true
    is_taxable := true
    allow_negative_stock := false }

/-- A template customer for concrete test databases. -/
def baseCustomer : Customer :=
  { id := 1
    loyalty_tier := .bronze
    loyalty_points := 0
    lifetime_points := 0
    total_purchases := 0
    total_spent := 0
    average_order_value := 0 }

/-- An empty database to extend in concrete scenarios. -/
def emptyDb : Db :=
  { items := []
    movements := []
    customers := []
    sales := []
    purchase_orders := []
    locations := []
    categories := []
    suppliers := [] }

example :
    adjust_stock { emptyDb with items := [{ baseItem with current_stock := 5 }] } 1
      { item_id := 1, quantity := -10, movement_type := .adjustment,
        notes := none, batch_number := none, unit_cost := none } 7
      = .error (.insufficientStock 5 (-10)) := by decide

example :
    (adjust_stock
      { emptyDb with items := [{ baseItem with current_stock := 5, allow_negative_stock := true }] } 1
      { item_id := 1, quantity := -10, movement_type := .adjustment,
        notes := none, batch_number := none, unit_cost := none } 7).toOption.map
        (fun p => itemStock p.1 1)
      = some (some (-5)) := by decide

example :
    (create_sale { emptyDb with items := [baseItem] }
      { location_id := 1, customer_id := none,
        items := [{ item_id := 1, quantity := 10, unit_price := 1000,
                    discount_percent := 0, discount_amount := 0 }],
        discount_amount := 0, payment_method := .cash, amount_tendered := some 0,
        points_redeemed := 0 } 7 1).toOption.map (fun p => (p.2.total_amount, itemStock p.1 1))
      = some (10000, some 90) := by decide

example :
    create_sale { emptyDb with items := [{ baseItem with current_stock := 5 }] }
      { location_id := 1, customer_id := none,
        items := [{ item_id := 1, quantity := 3, unit_price := 1000,
                    discount_percent := 0, discount_amount := 0 },
                  { item_id := 1, quantity := 4, unit_price := 1000,
                    discount_percent := 0, discount_amount := 0 }],
        discount_amount := 0, payment_method := .card, amount_tendered := none,
        points_redeemed := 0 } 7 1
      = .error (.insufficientStock (pystr "Widget A") 2) := by decide

example :
    (void_sale
      { emptyDb with
        customers := [baseCustomer]
        sales := [{ id := 1, location_id := 1, customer_id := some 1, subtotal := 1000,
                    tax_amount := 0, discount_amount := 0, total_amount := 1000,
                    payment_method := .cash, amount_tendered := some 1000,
                    change_given := some 0, status := .completed, points_earned := 10,
                    points_redeemed := 0, items := [] }] } 1 7).toOption.map
        (fun p => (findCustomer p.1 1).map Customer.loyalty_points)
      = some (some (-10)) := by decide

example :
    suggest_po_items
      { emptyDb with
        items := [{ baseItem with supplier_id := some 5, current_stock := 0, reorder_point := some 0 }] } 5
      = .error .validationError := by decide

example :
    (inventory_csv_import
      { emptyDb with items := [baseItem], locations := [{ id := 1, name := pystr "Main Store" }] }
      none
      (inventory_csv_export
        { emptyDb with items := [baseItem], locations := [{ id := 1, name := pystr "Main Store" }] }
        none)).1
      = { success := true, n_imported := 0, n_updated := 1, total_processed := 1, errors := [] } := by decide

/-! ## Ledger conservation machinery

LedgerExtends d d' states that d' arose from d by appending movement rows,
each satisfying the ledger equation stock_after = stock_before + quantity,
and that every touched item's stored current_stock equals the stock_after of
its last appended movement (untouched items keep their stock). -/

/-- The last appended movement concerning item i. -/
def lastFor (ms : List StockMovement) (i : Id) : Option StockMovement :=
  ms.reverse.find? (fun m => m.item_id == i)

/-- Transition predicate for a ledger write: appended rows satisfy the
ledger equation and item stocks track their last appended row. -/
def LedgerExtends (d d' : Db) : Prop :=
  ∃ ms, d'.movements = d.movements ++ ms ∧
    (∀ m ∈ ms, m.stock_after = m.stock_before + m.quantity) ∧
    (∀ i, (match lastFor ms i with
      | some m => itemStock d' i = some m.stock_after
      | none => itemStock d' i = itemStock d i))

theorem ledgerExtends_refl (d : Db) : LedgerExtends d d := by
  refine ⟨[], by simp, by simp, fun i => ?_⟩
  simp [lastFor]

theorem find?_append_first {α : Type} (l₁ l₂ : List α) (p : α → Bool) :
    (l₁ ++ l₂).find? p =
      match l₁.find? p with
      | some x => some x
      | none => l₂.find? p := by
  induction l₁ with
  | nil => simp
  | cons x xs ih => cases hx : p x <;> simp [List.find?_cons, hx, ih]

theorem lastFor_append (a b : List StockMovement) (i : Id) :
    lastFor (a ++ b) i =
      match lastFor b i with
      | some m => some m
      | none => lastFor a i := by
  unfold lastFor
  rw [List.reverse_append, find?_append_first]
  cases List.find? (fun m => m.item_id == i) b.reverse <;> rfl

theorem ledgerExtends_trans {d₁ d₂ d₃ : Db}
    (h₁ : LedgerExtends d₁ d₂) (h₂ : LedgerExtends d₂ d₃) : LedgerExtends d₁ d₃ := by
  obtain ⟨ms₁, hm₁, heq₁, hs₁⟩ := h₁
  obtain ⟨ms₂, hm₂, heq₂, hs₂⟩ := h₂
  refine ⟨ms₁ ++ ms₂, by rw [hm₂, hm₁, List.append_assoc], ?_, fun i => ?_⟩
  · intro m hm
    rcases List.mem_append.mp hm with h | h
    · exact heq₁ m h
    · exact heq₂ m h
  · have ha := lastFor_append ms₁ ms₂ i
    have g₁ := hs₁ i
    have g₂ := hs₂ i
    cases h2 : lastFor ms₂ i with
    | some m => rw [h2] at g₂; rw [ha, h2]; exact g₂
    | none =>
      rw [h2] at g₂
      rw [ha, h2]
      cases h1 : lastFor ms₁ i with
      | some m => rw [h1] at g₁; rw [g₂]; exact g₁
      | none => rw [h1] at g₁; rw [g₂]; exact g₁

theorem find?_update_self {α : Type} (key : α → Id) (l : List α) (a' : α)
    (h : (l.find? (fun x => key x == key a')).isSome) :
    (l.map (fun x => if key x == key a' then a' else x)).find? (fun x => key x == key a')
      = some a' := by
  induction l with
  | nil => simp [List.find?] at h
  | cons x xs ih =>
    by_cases hx : key x = key a'
    · have hmap : (x :: xs).map (fun y => if key y == key a' then a' else y)
          = a' :: xs.map (fun y => if key y == key a' then a' else y) := by
        simp [hx]
      rw [hmap, List.find?_cons]
      simp
    · have hx' : (key x == key a') = false := by
        simp only [beq_eq_false_iff_ne, ne_eq]
        exact hx
      have hhead : (if key x == key a' then a' else x) = x := by
        rw [hx']
        simp
      have hmap : (x :: xs).map (fun y => if key y == key a' then a' else y)
          = x :: xs.map (fun y => if key y == key a' then a' else y) := by
        rw [List.map_cons, hhead]
      rw [List.find?_cons, hx'] at h
      rw [hmap, List.find?_cons, hx']
      exact ih h

theorem find?_update_other {α : Type} (key : α → Id) (l : List α) (a' : α) (i : Id)
    (hne : i ≠ key a') :
    (l.map (fun x => if key x == key a' then a' else x)).find? (fun x => key x == i)
      = l.find? (fun x => key x == i) := by
  induction l with
  | nil => simp
  | cons x xs ih =>
    by_cases hx : key x = key a'
    · have h1 : (key a' == i) = false := by
        simp only [beq_eq_false_iff_ne, ne_eq]
        intro hc
        exact hne hc.symm
      have h2 : (key x == i) = false := by
        simp only [beq_eq_false_iff_ne, ne_eq]
        intro hc
        rw [hx] at hc
        exact hne hc.symm
      have hmap : (x :: xs).map (fun y => if key y == key a' then a' else y)
          = a' :: xs.map (fun y => if key y == key a' then a' else y) := by
        simp [hx]
      rw [hmap, List.find?_cons, h1, List.find?_cons, h2]
      exact ih
    · have hx' : (key x == key a') = false := by
        simp only [beq_eq_false_iff_ne, ne_eq]
        exact hx
      have hhead : (if key x == key a' then a' else x) = x := by
        rw [hx']
        simp
      have hmap : (x :: xs).map (fun y => if key y == key a' then a' else y)
          = x :: xs.map (fun y => if key y == key a' then a' else y) := by
        rw [List.map_cons, hhead]
      rw [hmap, List.find?_cons, List.find?_cons]
      cases hxi : (key x == i) with
      | true => rfl
      | false => exact ih

theorem itemStock_addMovement (d : Db) (m : StockMovement) (i : Id) :
    itemStock (addMovement d m) i = itemStock d i := rfl

/-- A single read-modify-write ledger application, the common shape of all
four write paths: replace the item row and append one movement. -/
theorem ledgerExtends_apply (d : Db) (it it' : InventoryItem) (m : StockMovement)
    (hfind : findItem d it.id = some it)
    (hid : it'.id = it.id)
    (hitem : m.item_id = it.id)
    (hafter : m.stock_after = m.stock_before + m.quantity)
    (hstock : it'.current_stock = m.stock_after) :
    LedgerExtends d (addMovement (setItem d it') m) := by
  refine ⟨[m], by simp [addMovement, setItem], by simpa using hafter, fun i => ?_⟩
  by_cases hi : i = m.item_id
  · subst hi
    have hl : lastFor [m] m.item_id = some m := by simp [lastFor]
    rw [hl, itemStock_addMovement]
    have hsome : (d.items.find? (fun x => x.id == it'.id)).isSome := by
      unfold findItem at hfind
      rw [hid, hfind]
      rfl
    have hfind' : findItem (setItem d it') m.item_id = some it' := by
      unfold findItem setItem
      simp only [hitem, ← hid]
      exact find?_update_self InventoryItem.id d.items it' hsome
    unfold itemStock
    rw [hfind']
    simp [hstock]
  · have hl : lastFor [m] i = none := by
      unfold lastFor
      have hb : (m.item_id == i) = false := by
        simp only [beq_eq_false_iff_ne, ne_eq]
        intro hc
        exact hi hc.symm
      simp [List.find?_cons, hb]
    rw [hl, itemStock_addMovement]
    have hne : i ≠ it'.id := by
      rw [hid, ← hitem]
      exact hi
    unfold itemStock findItem setItem
    rw [find?_update_other InventoryItem.id d.items it' i hne]

/-- Changes to tables other than items and movements preserve the ledger
transition. -/
theorem ledgerExtends_congr {d d₁ d₂ : Db}
    (h : LedgerExtends d d₁)
    (hitems : d₂.items = d₁.items) (hmov : d₂.movements = d₁.movements) :
    LedgerExtends d d₂ := by
  obtain ⟨ms, hm, heq, hs⟩ := h
  refine ⟨ms, by rw [hmov, hm], heq, fun i => ?_⟩
  have : itemStock d₂ i = itemStock d₁ i := by
    unfold itemStock findItem
    rw [hitems]
  rw [this]
  exact hs i

theorem findItem_id (db : Db) (i : Id) (it : InventoryItem)
    (h : findItem db i = some it) : it.id = i := by
  unfold findItem at h
  have := List.find?_some h
  simpa using this

theorem adjust_stock_ledger (db : Db) (item_id : Id) (req : StockAdjustment) (uid : Id)
    (db' : Db) (mv : StockMovement)
    (h : adjust_stock db item_id req uid = .ok (db', mv)) :
    LedgerExtends db db' := by
  unfold adjust_stock at h
  by_cases h1 : req.item_id ≠ item_id
  · simp [h1] at h
  · simp only [if_neg h1] at h
    cases hfind : findItem db item_id with
    | none => rw [hfind] at h; cases h
    | some item =>
      rw [hfind] at h
      have hid := findItem_id db item_id item hfind
      by_cases hchk : (item.current_stock + req.quantity < 0 ∧ item.allow_negative_stock = false)
      · simp [hchk] at h
      · simp only [if_neg hchk] at h
        cases h
        apply ledgerExtends_apply db item
          { item with current_stock := item.current_stock + req.quantity }
        · rw [hid]; exact hfind
        · rfl
        · exact hid.symm
        · rfl
        · rfl

theorem processSaleLine_ledger (uid : Id) (st st' : LineState) (line : SaleItemCreate)
    (h : processSaleLine uid st line = .ok st') : LedgerExtends st.db st'.db := by
  unfold processSaleLine at h
  cases hfind : findItem st.db line.item_id with
  | none => rw [hfind] at h; cases h
  | some inv =>
    rw [hfind] at h
    have hid := findItem_id st.db line.item_id inv hfind
    by_cases hchk : (line.quantity > inv.current_stock - inv.reserved_stock ∧ inv.allow_negative_stock = false)
    · simp [hchk] at h
    · simp only [if_neg hchk] at h
      cases h
      apply ledgerExtends_apply st.db inv
        { inv with current_stock := inv.current_stock - line.quantity }
      · rw [hid]; exact hfind
      · rfl
      · rfl
      · show inv.current_stock - line.quantity = inv.current_stock + -line.quantity
        ring
      · rfl

theorem processSaleLines_ledger (uid : Id) (lines : List SaleItemCreate) :
    ∀ (st st' : LineState), processSaleLines uid st lines = .ok st' →
      LedgerExtends st.db st'.db := by
  induction lines with
  | nil =>
    intro st st' h
    unfold processSaleLines at h
    cases h
    exact ledgerExtends_refl _
  | cons line rest ih =>
    intro st st' h
    unfold processSaleLines at h
    cases hstep : processSaleLine uid st line with
    | error e => rw [hstep] at h; cases h
    | ok st₁ =>
      rw [hstep] at h
      exact ledgerExtends_trans (processSaleLine_ledger uid st st₁ line hstep) (ih st₁ st' h)

theorem saleLoyaltyRes_core (d : Db) (req : SaleCreate) (ta : Rat) (db₂ : Db) (pe : Int)
    (h : saleLoyaltyRes d req ta = .ok (db₂, pe)) :
    db₂.items = d.items ∧ db₂.movements = d.movements := by
  unfold saleLoyaltyRes at h
  cases hcid : req.customer_id with
  | none => rw [hcid] at h; cases h; exact ⟨rfl, rfl⟩
  | some cid =>
    rw [hcid] at h
    dsimp only at h
    cases hcust : findCustomer d cid with
    | none => rw [hcust] at h; cases h; exact ⟨rfl, rfl⟩
    | some customer =>
      rw [hcust] at h
      dsimp only at h
      by_cases hred : req.points_redeemed > 0
      · rw [if_pos hred] at h
        cases hr : redeem_points (add_points customer (ta / 100).floor) req.points_redeemed with
        | none => rw [hr] at h; cases h
        | some c => rw [hr] at h; dsimp only at h; cases h; exact ⟨rfl, rfl⟩
      · rw [if_neg hred] at h
        dsimp only at h
        cases h
        exact ⟨rfl, rfl⟩

theorem create_sale_ledger (db : Db) (req : SaleCreate) (uid : Id) (sid : Id)
    (db' : Db) (sale : Sale)
    (h : create_sale db req uid sid = .ok (db', sale)) :
    LedgerExtends db db' := by
  unfold create_sale at h
  cases hlines : processSaleLines uid { db := db, sale_items := [], subtotal := 0, total_tax := 0 } req.items with
  | error e => rw [hlines] at h; cases h
  | ok st =>
    rw [hlines] at h
    dsimp only at h
    have hloop : LedgerExtends db st.db :=
      processSaleLines_ledger uid req.items _ st hlines
    cases hchange : saleChangeRes req (st.subtotal - req.discount_amount + st.total_tax) with
    | error e => rw [hchange] at h; cases h
    | ok change_given =>
      rw [hchange] at h
      dsimp only at h
      cases hloy : saleLoyaltyRes st.db req (st.subtotal - req.discount_amount + st.total_tax) with
      | error e => rw [hloy] at h; cases h
      | ok p =>
        obtain ⟨db₂, pe⟩ := p
        rw [hloy] at h
        dsimp only at h
        cases h
        obtain ⟨hi, hm⟩ := saleLoyaltyRes_core st.db req _ db₂ pe hloy
        exact ledgerExtends_congr hloop hi hm

theorem voidRestockStep_ledger (uid : Id) (sid : Id) (d : Db) (si : SaleItem) :
    LedgerExtends d (voidRestockStep uid sid d si) := by
  unfold voidRestockStep
  cases hfind : findItem d si.item_id with
  | none => exact ledgerExtends_refl d
  | some inv =>
    have hid := findItem_id d si.item_id inv hfind
    apply ledgerExtends_apply d inv
      { inv with current_stock := inv.current_stock + si.quantity }
    · rw [hid]; exact hfind
    · rfl
    · rfl
    · rfl
    · rfl

theorem voidRestock_ledger (uid : Id) (sid : Id) :
    ∀ (l : List SaleItem) (d : Db),
      LedgerExtends d (l.foldl (voidRestockStep uid sid) d) := by
  intro l
  induction l with
  | nil => intro d; exact ledgerExtends_refl d
  | cons si rest ih =>
    intro d
    rw [List.foldl_cons]
    exact ledgerExtends_trans (voidRestockStep_ledger uid sid d si) (ih _)

theorem void_sale_ledger (db : Db) (sid : Id) (uid : Id) (db' : Db) (sale' : Sale)
    (h : void_sale db sid uid = .ok (db', sale')) :
    LedgerExtends db db' := by
  unfold void_sale at h
  cases hfind : findSale db sid with
  | none => rw [hfind] at h; cases h
  | some sale =>
    rw [hfind] at h
    by_cases hst : sale.status = SaleStatus.voided
    · simp [hst] at h
    · simp only [if_neg hst] at h
      cases h
      have h₁ : LedgerExtends db (voidRestockLines uid sale db) := by
        unfold voidRestockLines
        exact voidRestock_ledger uid sale.id sale.items db
      have h₂ : LedgerExtends db
          (match sale.customer_id with
            | none => voidRestockLines uid sale db
            | some cid =>
              if sale.points_earned > 0 then
                match findCustomer (voidRestockLines uid sale db) cid with
                | none => voidRestockLines uid sale db
                | some customer =>
                  setCustomer (voidRestockLines uid sale db)
                    { customer with
                      loyalty_points := customer.loyalty_points - sale.points_earned
                      lifetime_points := customer.lifetime_points - sale.points_earned }
              else voidRestockLines uid sale db) := by
        cases sale.customer_id with
        | none => exact h₁
        | some cid =>
          by_cases hpts : sale.points_earned > 0
          · simp only [if_pos hpts]
            cases findCustomer (voidRestockLines uid sale db) cid with
            | none => exact h₁
            | some customer => exact ledgerExtends_congr h₁ rfl rfl
          · simp only [if_neg hpts]
            exact h₁
      exact ledgerExtends_congr h₂ rfl rfl

theorem receive_po_lines_ledger (uid : Id) (poid : Id) (onum : PyStr) :
    ∀ (l : List PurchaseOrderItem) (d : Db),
      LedgerExtends d (receive_po_lines uid poid onum d l).1 := by
  intro l
  induction l with
  | nil => intro d; exact ledgerExtends_refl d
  | cons li rest ih =>
    intro d
    unfold receive_po_lines
    cases hfind : findItem d li.item_id with
    | none => exact ih d
    | some inv =>
      simp only
      have hid := findItem_id d li.item_id inv hfind
      refine ledgerExtends_trans ?_ (ih _)
      apply ledgerExtends_apply d inv
        { inv with current_stock := inv.current_stock + li.quantity }
      · rw [hid]; exact hfind
      · rfl
      · rfl
      · rfl
      · rfl

theorem update_po_ledger (db : Db) (po_id : Id) (upd : PurchaseOrderUpdate)
    (uid : Id) (now : Nat) (db' : Db) (po' : PurchaseOrder)
    (h : update_purchase_order db po_id upd uid now = .ok (db', po')) :
    LedgerExtends db db' := by
  unfold update_purchase_order at h
  cases hfind : findPO db po_id with
  | none => rw [hfind] at h; cases h
  | some po =>
    rw [hfind] at h
    by_cases hst : po.status = POStatus.received
    · simp [hst] at h
    · simp only [if_neg hst] at h
      have hcore : LedgerExtends db
          (match upd.status with
            | none => (db, po)
            | some newStatus =>
              let previous_status := po.status
              let po'' := { po with status := newStatus }
              if po''.status = POStatus.received ∧ previous_status ≠ POStatus.received then
                let po₃ := { po'' with received_date := some now }
                let pr := receive_po_lines uid po.id po.order_number db po.items
                (pr.1, { po₃ with items := pr.2 })
              else (db, po'')).1 := by
        cases upd.status with
        | none => exact ledgerExtends_refl db
        | some newStatus =>
          by_cases hrec : ({ po with status := newStatus } : PurchaseOrder).status = POStatus.received
              ∧ po.status ≠ POStatus.received
          · simp only [if_pos hrec]
            exact receive_po_lines_ledger uid po.id po.order_number po.items db
          · simp only [if_neg hrec]
            exact ledgerExtends_refl db
      cases h
      exact ledgerExtends_congr hcore rfl rfl

/-- Boolean success test for endpoint results. -/
def isOkE {ε α : Type} (e : Except ε α) : Bool :=
  match e with
  | .ok _ => true
  | .error _ => false

theorem findItem_setItem_self (db : Db) (it it' : InventoryItem)
    (hfind : findItem db it.id = some it) (hid : it'.id = it.id) :
    findItem (setItem db it') it.id = some it' := by
  unfold findItem setItem
  rw [← hid]
  apply find?_update_self InventoryItem.id
  unfold findItem at hfind
  rw [hid, hfind]
  rfl

/-! ## Claim C1 -/

/-- C1: every StockMovement record created by any of the four write paths
(manual stock adjustment, sale creation, sale void, purchase-order receipt)
satisfies stock_after = stock_before + quantity, and each touched item's
current_stock after the operation equals the stock_after of its last
appended movement (LedgerExtends packages both facts). -/
theorem c1_ledger_equation_all_write_paths :
    (∀ db item_id req uid db' mv,
      adjust_stock db item_id req uid = Except.ok (db', mv) → LedgerExtends db db') ∧
    (∀ db req uid sid db' sale,
      create_sale db req uid sid = Except.ok (db', sale) → LedgerExtends db db') ∧
    (∀ db sid uid db' sale',
      void_sale db sid uid = Except.ok (db', sale') → LedgerExtends db db') ∧
    (∀ db po_id upd uid now db' po',
      update_purchase_order db po_id upd uid now = Except.ok (db', po') → LedgerExtends db db') := by
  refine ⟨?_, ?_, ?_, ?_⟩
  · intro db item_id req uid db' mv h
    exact adjust_stock_ledger db item_id req uid db' mv h
  · intro db req uid sid db' sale h
    exact create_sale_ledger db req uid sid db' sale h
  · intro db sid uid db' sale' h
    exact void_sale_ledger db sid uid db' sale' h
  · intro db po_id upd uid now db' po' h
    exact update_po_ledger db po_id upd uid now db' po' h

/-- A completed sale on file, used by concrete void scenarios. -/
def saleFix : Sale :=
  { id := 1
    location_id := 1
    customer_id := none
    subtotal := 10000
    tax_amount := 0
    discount_amount := 0
    total_amount := 10000
    payment_method := .cash
    amount_tendered := some 10000
    change_given := some 0
    status := .completed
    points_earned := 0
    points_redeemed := 0
    items := [{ item_id := 1, sku := pystr "SKU-1", name := pystr "Widget A", quantity := 10,
                unit_price := 1000, cost_price := none, discount_percent := 0,
                discount_amount := 0, tax_rate := 0, tax_amount := 0, line_total := 10000 }] }

/-- A pending purchase order on file, used by concrete receipt scenarios. -/
def poFix : PurchaseOrder :=
  { id := 1
    order_number := pystr "PO-1"
    supplier_id := 5
    status := .pending
    items := [{ item_id := 1, quantity := 50, received_quantity := 0, unit_cost := 500 }]
    received_date := none
    expected_date := none
    notes := none }

/-- A database exercising all four write paths. -/
def dbC1 : Db :=
  { emptyDb with
    items := [baseItem]
    customers := [baseCustomer]
    sales := [saleFix]
    purchase_orders := [poFix] }

/-- A concrete manual adjustment request. -/
def adjReqC1 : StockAdjustment :=
  { item_id := 1, quantity := 5, movement_type := .adjustment,
    notes := none, batch_number := none, unit_cost := none }

/-- A concrete sale request. -/
def saleReqC1 : SaleCreate :=
  { location_id := 1, customer_id := none,
    items := [{ item_id := 1, quantity := 2, unit_price := 1000,
                discount_percent := 0, discount_amount := 0 }],
    discount_amount := 0, payment_method := .card, amount_tendered := none,
    points_redeemed := 0 }

/-- A concrete status update that receives the order. -/
def poUpdC1 : PurchaseOrderUpdate :=
  { supplier_id := none, status := some .received, expected_date := none, notes := none }

theorem c1_witness :
    LedgerExtends dbC1 (dbAfterAdjust dbC1 1 adjReqC1 7) ∧
    LedgerExtends dbC1 (dbAfterSale dbC1 saleReqC1 7 2) ∧
    LedgerExtends dbC1 (dbAfterVoid dbC1 1 7) ∧
    LedgerExtends dbC1 (dbAfterPOUpdate dbC1 1 poUpdC1 7 99) := by
  refine ⟨?_, ?_, ?_, ?_⟩
  · cases hres : adjust_stock dbC1 1 adjReqC1 7 with
    | error e =>
      have hok : isOkE (adjust_stock dbC1 1 adjReqC1 7) = true := by decide
      rw [hres] at hok
      exact absurd hok (by simp [isOkE])
    | ok p =>
      have hdb : dbAfterAdjust dbC1 1 adjReqC1 7 = p.1 := by
        unfold dbAfterAdjust
        rw [hres]
      rw [hdb]
      exact c1_ledger_equation_all_write_paths.1 dbC1 1 adjReqC1 7 p.1 p.2 (by rw [hres])
  · cases hres : create_sale dbC1 saleReqC1 7 2 with
    | error e =>
      have hok : isOkE (create_sale dbC1 saleReqC1 7 2) = true := by decide
      rw [hres] at hok
      exact absurd hok (by simp [isOkE])
    | ok p =>
      have hdb : dbAfterSale dbC1 saleReqC1 7 2 = p.1 := by
        unfold dbAfterSale
        rw [hres]
      rw [hdb]
      exact c1_ledger_equation_all_write_paths.2.1 dbC1 saleReqC1 7 2 p.1 p.2 (by rw [hres])
  · cases hres : void_sale dbC1 1 7 with
    | error e =>
      have hok : isOkE (void_sale dbC1 1 7) = true := by decide
      rw [hres] at hok
      exact absurd hok (by simp [isOkE])
    | ok p =>
      have hdb : dbAfterVoid dbC1 1 7 = p.1 := by
        unfold dbAfterVoid
        rw [hres]
      rw [hdb]
      exact c1_ledger_equation_all_write_paths.2.2.1 dbC1 1 7 p.1 p.2 (by rw [hres])
  · cases hres : update_purchase_order dbC1 1 poUpdC1 7 99 with
    | error e =>
      have hok : isOkE (update_purchase_order dbC1 1 poUpdC1 7 99) = true := by decide
      rw [hres] at hok
      exact absurd hok (by simp [isOkE])
    | ok p =>
      have hdb : dbAfterPOUpdate dbC1 1 poUpdC1 7 99 = p.1 := by
        unfold dbAfterPOUpdate
        rw [hres]
      rw [hdb]
      exact c1_ledger_equation_all_write_paths.2.2.2 dbC1 1 poUpdC1 7 99 p.1 p.2 (by rw [hres])

/-! ## Claim C2 -/

/-- C2: when create_sale's per-line loop fails the stock check on some line
with an InsufficientStock error naming the offending item, the whole call
fails with that very error and the persisted database — items, stock and
movement ledger alike — is exactly the input state: no earlier line of the
same call has left any trace. -/
theorem c2_sale_atomic_on_stock_failure (db : Db) (req : SaleCreate) (uid sid : Id)
    (nm : PyStr) (avail : Rat)
    (h : processSaleLines uid { db := db, sale_items := [], subtotal := 0, total_tax := 0 } req.items
      = .error (.insufficientStock nm avail)) :
    create_sale db req uid sid = .error (.insufficientStock nm avail) ∧
    dbAfterSale db req uid sid = db := by
  constructor
  · unfold create_sale
    rw [h]
  · unfold dbAfterSale create_sale
    rw [h]

/-- A database where a two-line cart fails its stock check on the second
line. -/
def dbC2 : Db := { emptyDb with items := [{ baseItem with current_stock := 5 }] }

/-- A cart whose second line exceeds the remaining stock after the first
line's in-session deduction. -/
def saleReqC2 : SaleCreate :=
  { location_id := 1, customer_id := none,
    items := [{ item_id := 1, quantity := 3, unit_price := 1000,
                discount_percent := 0, discount_amount := 0 },
              { item_id := 1, quantity := 4, unit_price := 1000,
                discount_percent := 0, discount_amount := 0 }],
    discount_amount := 0, payment_method := .card, amount_tendered := none,
    points_redeemed := 0 }

theorem c2_witness :
    create_sale dbC2 saleReqC2 7 1 = .error (.insufficientStock (pystr "Widget A") 2) ∧
    dbAfterSale dbC2 saleReqC2 7 1 = dbC2 := by
  have h : processSaleLines 7 { db := dbC2, sale_items := [], subtotal := 0, total_tax := 0 }
      saleReqC2.items = .error (.insufficientStock (pystr "Widget A") 2) := by decide
  exact c2_sale_atomic_on_stock_failure dbC2 saleReqC2 7 1 (pystr "Widget A") 2 h

/-! ## Claim C3 -/

/-- C3: for a stock adjustment driving current_stock + quantity below zero,
an item with allow_negative_stock = false rejects the call with an
InsufficientStock error and both the item row and the movement ledger are
untouched, while an item with the flag set accepts it and is left holding
the negative sum. -/
theorem c3_negative_stock_policy (db : Db) (item_id uid : Id) (req : StockAdjustment)
    (item : InventoryItem)
    (hfind : findItem db item_id = some item)
    (hreq : req.item_id = item_id)
    (hneg : item.current_stock + req.quantity < 0) :
    (item.allow_negative_stock = false →
      adjust_stock db item_id req uid
        = .error (.insufficientStock item.current_stock req.quantity) ∧
      dbAfterAdjust db item_id req uid = db) ∧
    (item.allow_negative_stock = true →
      isOkE (adjust_stock db item_id req uid) = true ∧
      itemStock (dbAfterAdjust db item_id req uid) item_id
        = some (item.current_stock + req.quantity)) := by
  have hid := findItem_id db item_id item hfind
  constructor
  · intro hflag
    have herr : adjust_stock db item_id req uid
        = .error (.insufficientStock item.current_stock req.quantity) := by
      unfold adjust_stock
      rw [if_neg (by simp [hreq]), hfind]
      dsimp only
      rw [if_pos ⟨hneg, hflag⟩]
    refine ⟨herr, ?_⟩
    unfold dbAfterAdjust
    rw [herr]
  · intro hflag
    have hok : adjust_stock db item_id req uid
        = .ok (addMovement
            (setItem db { item with current_stock := item.current_stock + req.quantity })
            { item_id := item_id
              movement_type := req.movement_type
              quantity := req.quantity
              unit_cost := req.unit_cost
              stock_before := item.current_stock
              stock_after := item.current_stock + req.quantity
              reference_type := none
              reference_id := none
              notes := req.notes
              batch_number := req.batch_number
              performed_by := some uid },
            { item_id := item_id
              movement_type := req.movement_type
              quantity := req.quantity
              unit_cost := req.unit_cost
              stock_before := item.current_stock
              stock_after := item.current_stock + req.quantity
              reference_type := none
              reference_id := none
              notes := req.notes
              batch_number := req.batch_number
              performed_by := some uid }) := by
      unfold adjust_stock
      rw [if_neg (by simp [hreq]), hfind]
      dsimp only
      rw [if_neg (by simp [hflag])]
    constructor
    · rw [hok]
      rfl
    · unfold dbAfterAdjust
      rw [hok]
      show itemStock (addMovement (setItem db _) _) item_id = _
      rw [itemStock_addMovement]
      unfold itemStock
      have hfind' : findItem db item.id = some item := by rw [hid]; exact hfind
      have hset := findItem_setItem_self db item
        { item with current_stock := item.current_stock + req.quantity } hfind' rfl
      rw [← hid, hset]
      rfl

/-- The spec's concrete policy scenario, flag off: stock 5. -/
def itemC3a : InventoryItem := { baseItem with current_stock := 5 }

/-- The same item shape with allow_negative_stock on. -/
def itemC3b : InventoryItem :=
  { baseItem with id := 2, sku := pystr "SKU-2", current_stock := 5, allow_negative_stock := true }

/-- A database holding both variants of the policy scenario. -/
def dbC3 : Db := { emptyDb with items := [itemC3a, itemC3b] }

/-- The spec's concrete adjustment of -10 against stock 5. -/
def adjReqC3 : StockAdjustment :=
  { item_id := 1, quantity := -10, movement_type := .adjustment,
    notes := none, batch_number := none, unit_cost := none }

theorem c3_witness :
    (adjust_stock dbC3 1 adjReqC3 7 = .error (.insufficientStock 5 (-10)) ∧
      dbAfterAdjust dbC3 1 adjReqC3 7 = dbC3) ∧
    (isOkE (adjust_stock dbC3 2 { adjReqC3 with item_id := 2 } 7) = true ∧
      itemStock (dbAfterAdjust dbC3 2 { adjReqC3 with item_id := 2 } 7) 2 = some (-5)) := by
  constructor
  · have h := (c3_negative_stock_policy dbC3 1 7 adjReqC3
      itemC3a (by decide) (by decide) (by decide)).1 (by decide)
    constructor
    · rw [h.1]
      decide
    · exact h.2
  · have h := (c3_negative_stock_policy dbC3 2 7 { adjReqC3 with item_id := 2 }
      itemC3b (by decide) (by decide) (by decide)).2 (by decide)
    constructor
    · exact h.1
    · rw [h.2]
      decide

/-! ## Claim C5 -/

/-- A bulk-import row carrying the repository test suite's comma-grouped
price (test_import_comprehensive.py, test_numeric_parsing). -/
def rowC5 : CsvRow :=
  { sku := some (pystr "TEST-NUM-001")
    barcode := none
    name := some (pystr "Comma Format")
    description := none
    category := none
    location := some (pystr "Main Store")
    supplier := none
    stock := some (pystr "100,50")
    min_stock := some (pystr "")
    cost_price := some (pystr "500,25")
    selling_price := some (pystr "1,500.50")
    unit := none }

/-- A catalog with the location the test rows name. -/
def dbC5 : Db := { emptyDb with locations := [{ id := 1, name := pystr "Main Store" }] }

/-- C5: evaluation of the import's numeric parser at the claim's inputs.
The source substitutes comma for dot unconditionally, so the comma-grouped
"1,500.50" becomes "1.500.50", which float() rejects: the parse yields the
default None and the row errors, instead of the value 1500.50 the claim (and
the repository's own test_numeric_parsing test) expects. The plain and
comma-decimal forms, and the "abc"/"-5" row-error cases, behave as claimed.
(The claim's "straight parse first" phrasing is extensionally harmless,
since float() never accepts a string containing a comma.) -/
theorem c5_parse_float_eval :
    parse_float (some (pystr "1,500.50")) none = none ∧
    parse_float (some (pystr "1500.50")) none = some (mkRat 3001 2) ∧
    parse_float (some (pystr "1500,50")) none = some (mkRat 3001 2) ∧
    parse_float (some (pystr "abc")) none = none ∧
    parse_float (some (pystr "-5")) none = some (mkRat (-5) 1) ∧
    (csv_import_row none 2
        { db := dbC5, n_imported := 0, n_updated := 0, errors := [] } rowC5)
      = { db := dbC5, n_imported := 0, n_updated := 0,
          errors := [.invalidSellingPrice 2 (pystr "1,500.50")] } := by
  refine ⟨by decide, by decide, by decide, by decide, by decide, by decide⟩

/-! ## Claim C6 -/

/-- A database for cash-tender scenarios. -/
def dbC6 : Db := { emptyDb with items := [baseItem] }

/-- A cash sale claiming to tender 0 against a positive total. -/
def saleReqC6 : SaleCreate :=
  { location_id := 1, customer_id := none,
    items := [{ item_id := 1, quantity := 1, unit_price := 100,
                discount_percent := 0, discount_amount := 0 }],
    discount_amount := 0, payment_method := .cash, amount_tendered := some 0,
    points_redeemed := 0 }

/-- C6 counterexample: a cash sale with amount_tendered = 0 strictly below
the total of 100 succeeds instead of failing with PaymentInsufficient — the
source guards the check with Python truthiness (if request.amount_tendered),
which 0.0 fails, so the check is skipped entirely. -/
theorem c6_counterexample :
    saleReqC6.payment_method = .cash ∧
    saleReqC6.amount_tendered = some 0 ∧
    ((create_sale dbC6 saleReqC6 7 1).toOption.map (fun p => p.2.total_amount))
      = some (mkRat 100 1) ∧
    (0 : Rat) < mkRat 100 1 ∧
    isOkE (create_sale dbC6 saleReqC6 7 1) = true := by
  refine ⟨by decide, by decide, by decide, by decide, by decide⟩

/-- C6 as amended: when the per-line loop succeeds, the method is cash and
the tendered amount is present, non-zero and strictly below the computed
total, the call fails with PaymentInsufficient and the persisted database is
unchanged (the single commit is never reached, so no stock deduction or
movement row of this call survives). -/
theorem c6_cash_check_when_tendered_nonzero (db : Db) (req : SaleCreate) (uid sid : Id)
    (st : LineState) (t : Rat)
    (hlines : processSaleLines uid { db := db, sale_items := [], subtotal := 0, total_tax := 0 }
      req.items = .ok st)
    (hcash : req.payment_method = .cash)
    (ht : req.amount_tendered = some t)
    (hnz : t ≠ 0)
    (hlt : t < st.subtotal - req.discount_amount + st.total_tax) :
    create_sale db req uid sid = .error .amountTenderedLessThanTotal ∧
    dbAfterSale db req uid sid = db := by
  have htruthy : pyTruthyRat req.amount_tendered = true := by
    rw [ht]
    simp [pyTruthyRat, hnz]
  have hchange : saleChangeRes req (st.subtotal - req.discount_amount + st.total_tax)
      = .error .amountTenderedLessThanTotal := by
    unfold saleChangeRes
    rw [if_pos ⟨htruthy, hcash⟩, ht]
    dsimp only
    rw [if_pos (by linarith)]
  constructor
  · unfold create_sale
    rw [hlines]
    dsimp only
    rw [hchange]
  · unfold dbAfterSale create_sale
    rw [hlines]
    dsimp only
    rw [hchange]

/-- A cash sale tendering a non-zero 50 against a total of 100. -/
def saleReqC6w : SaleCreate := { saleReqC6 with amount_tendered := some 50 }

/-- The line-loop state after saleReqC6w's single line. -/
def stC6 : LineState :=
  { db := { emptyDb with
      items := [{ baseItem with current_stock := 99 }]
      movements := [{ item_id := 1, movement_type := .sale, quantity := -1, unit_cost := none,
                      stock_before := 100, stock_after := 99, reference_type := none,
                      reference_id := none, notes := none, batch_number := none,
                      performed_by := some 7 }] }
    sale_items := [{ item_id := 1, sku := pystr "SKU-1", name := pystr "Widget A", quantity := 1,
                     unit_price := 100, cost_price := none, discount_percent := 0,
                     discount_amount := 0, tax_rate := 0, tax_amount := 0, line_total := 100 }]
    subtotal := 100
    total_tax := 0 }

theorem c6_witness :
    create_sale dbC6 saleReqC6w 7 1 = .error .amountTenderedLessThanTotal ∧
    dbAfterSale dbC6 saleReqC6w 7 1 = dbC6 := by
  have hlines : processSaleLines 7
      { db := dbC6, sale_items := [], subtotal := 0, total_tax := 0 } saleReqC6w.items
      = .ok stC6 := by decide
  exact c6_cash_check_when_tendered_nonzero dbC6 saleReqC6w 7 1 stC6 50 hlines (by decide)
    (by decide) (by decide) (by decide)

/-! ## Claim C7 -/

/-- Customers are untouched by void_sale's stock-reversal loop. -/
theorem voidRestock_customers (uid sid : Id) :
    ∀ (l : List SaleItem) (d : Db),
      (l.foldl (voidRestockStep uid sid) d).customers = d.customers := by
  intro l
  induction l with
  | nil => intro d; rfl
  | cons si rest ih =>
    intro d
    rw [List.foldl_cons]
    rw [ih]
    unfold voidRestockStep
    cases findItem d si.item_id with
    | none => rfl
    | some inv => rfl

theorem findCustomer_id (db : Db) (i : Id) (c : Customer)
    (h : findCustomer db i = some c) : c.id = i := by
  unfold findCustomer at h
  have := List.find?_some h
  simpa using this

theorem findCustomer_setCustomer_self (db : Db) (c c' : Customer)
    (hfind : findCustomer db c.id = some c) (hid : c'.id = c.id) :
    findCustomer (setCustomer db c') c.id = some c' := by
  unfold findCustomer setCustomer
  rw [← hid]
  apply find?_update_self Customer.id
  unfold findCustomer at hfind
  rw [hid, hfind]
  rfl

/-- C7 as amended: on a successful void of a sale with a customer and
positive points_earned, the customer's loyalty_points and lifetime_points
are reduced by points_earned with no clamping — the void always succeeds
regardless of the customer's balances (the reversal can drive both fields
negative). -/
theorem c7_void_points_reversal_no_clamp (db : Db) (sid uid : Id) (sale : Sale)
    (cid : Id) (c : Customer)
    (hfind : findSale db sid = some sale)
    (hst : sale.status ≠ .voided)
    (hcid : sale.customer_id = some cid)
    (hpts : sale.points_earned > 0)
    (hcust : findCustomer db cid = some c) :
    isOkE (void_sale db sid uid) = true ∧
    (findCustomer (dbAfterVoid db sid uid) cid).map Customer.loyalty_points
      = some (c.loyalty_points - sale.points_earned) ∧
    (findCustomer (dbAfterVoid db sid uid) cid).map Customer.lifetime_points
      = some (c.lifetime_points - sale.points_earned) := by
  have hcid' := findCustomer_id db cid c hcust
  have hcust₁ : findCustomer (voidRestockLines uid sale db) cid = some c := by
    unfold findCustomer
    unfold voidRestockLines
    rw [voidRestock_customers uid sale.id sale.items db]
    exact hcust
  have hvoid : void_sale db sid uid
      = .ok (setSale
          (setCustomer (voidRestockLines uid sale db)
            { c with
              loyalty_points := c.loyalty_points - sale.points_earned
              lifetime_points := c.lifetime_points - sale.points_earned })
          { sale with status := .voided },
        { sale with status := .voided }) := by
    unfold void_sale
    rw [hfind]
    dsimp only
    rw [if_neg hst, hcid]
    dsimp only
    rw [if_pos hpts, hcust₁]
  have hdb : dbAfterVoid db sid uid
      = setSale
          (setCustomer (voidRestockLines uid sale db)
            { c with
              loyalty_points := c.loyalty_points - sale.points_earned
              lifetime_points := c.lifetime_points - sale.points_earned })
          { sale with status := .voided } := by
    unfold dbAfterVoid
    rw [hvoid]
  have hcfinal : findCustomer (dbAfterVoid db sid uid) cid
      = some { c with
          loyalty_points := c.loyalty_points - sale.points_earned
          lifetime_points := c.lifetime_points - sale.points_earned } := by
    rw [hdb]
    have hsale_pres : findCustomer (setSale
        (setCustomer (voidRestockLines uid sale db)
          { c with
            loyalty_points := c.loyalty_points - sale.points_earned
            lifetime_points := c.lifetime_points - sale.points_earned })
        { sale with status := .voided }) cid
        = findCustomer (setCustomer (voidRestockLines uid sale db)
          { c with
            loyalty_points := c.loyalty_points - sale.points_earned
            lifetime_points := c.lifetime_points - sale.points_earned }) cid := rfl
    rw [hsale_pres, ← hcid']
    exact findCustomer_setCustomer_self (voidRestockLines uid sale db) c _
      (by rw [hcid']; exact hcust₁) rfl
  refine ⟨by rw [hvoid]; rfl, ?_, ?_⟩
  · rw [hcfinal]
    rfl
  · rw [hcfinal]
    rfl

/-- A completed sale that earned 10 points for customer 1. -/
def saleC7 : Sale := { saleFix with customer_id := some 1, points_earned := 10 }

/-- A database whose customer holds fewer points than were earned (all 10
were redeemed since the sale). -/
def dbC7 : Db :=
  { emptyDb with items := [baseItem], customers := [baseCustomer], sales := [saleC7] }

/-- C7 counterexample: voiding the sale drives the customer's
loyalty_points and lifetime_points to -10; the claim says they are clamped
at zero and never become negative. -/
theorem c7_counterexample :
    isOkE (void_sale dbC7 1 7) = true ∧
    (findCustomer (dbAfterVoid dbC7 1 7) 1).map Customer.loyalty_points = some (-10) ∧
    (findCustomer (dbAfterVoid dbC7 1 7) 1).map Customer.lifetime_points = some (-10) ∧
    ((-10 : Int) < 0) := by
  refine ⟨by decide, by decide, by decide, by decide⟩

theorem c7_witness :
    isOkE (void_sale dbC7 1 7) = true ∧
    (findCustomer (dbAfterVoid dbC7 1 7) 1).map Customer.loyalty_points = some (0 - 10) ∧
    (findCustomer (dbAfterVoid dbC7 1 7) 1).map Customer.lifetime_points = some (0 - 10) := by
  exact c7_void_points_reversal_no_clamp dbC7 1 7 saleC7 1 baseCustomer
    (by decide) (by decide) (by decide) (by decide) (by decide)

/-! ## Claim C9 -/

/-- An active supplier item whose reorder point is explicitly zero and
whose cost price is positive (so the suggestion construction validates). -/
def itemC9 : InventoryItem :=
  { baseItem with
    supplier_id := some 5
    current_stock := 0
    reorder_point := some 0
    cost_price := some 3 }

/-- A catalog holding only that item. -/
def dbC9 : Db := { emptyDb with items := [itemC9] }

/-- C9 counterexample: for an item with reorder_point = 0 (no max level, no
reorder quantity, positive cost price), the claim's rule yields 2 * 0 = 0, a
non-positive quantity that must be omitted, yet the code suggests quantity
20: Python's `item.reorder_point or 10` treats the explicit 0 as unset. -/
theorem c9_counterexample :
    itemC9.reorder_point = some 0 ∧
    itemC9.max_stock_level = none ∧
    itemC9.reorder_quantity = none ∧
    ¬ ((2 : Rat) * 0 > 0) ∧
    suggest_po_items dbC9 5 = .ok [{ item_id := 1, quantity := 20, unit_cost := 3 }] := by
  refine ⟨by decide, by decide, by decide, by decide, by decide⟩

/-- The suggested quantity as the amended claim states it: the max-level gap
when a max is configured, else the reorder quantity when configured, else
2 * reorder_point when the reorder point is nonzero, else 20. (An item with
no reorder point never reaches the quantity rule: the SQL filter
current_stock <= reorder_point is not satisfied by NULL.) -/
def specSuggestQty (it : InventoryItem) : Rat :=
  match it.max_stock_level with
  | some m => m - it.current_stock
  | none =>
    match it.reorder_quantity with
    | some rq => rq
    | none =>
      match it.reorder_point with
      | some rp => if rp = 0 then 20 else 2 * rp
      | none => 20

/-- The reorder suggestion as the amended claim states it: exactly the
active items of the supplier having a reorder point with current_stock at or
below it, whose suggested quantity is positive. -/
def specSuggest (db : Db) (supplier_id : Id) : List POItemSuggestion :=
  db.items.filterMap (fun it =>
    if suggestFilter supplier_id it then
      (if 0 < specSuggestQty it then
        some { item_id := it.id, quantity := specSuggestQty it,
               unit_cost := pyOrRat it.cost_price 0 }
      else none)
    else none)

/-- On a selected row the loop's qty_to_order equals the amended rule's
quantity: selection guarantees a present reorder point. -/
theorem qty_to_order_spec (supplier_id : Id) (it : InventoryItem)
    (hp : suggestFilter supplier_id it = true) :
    qty_to_order it = specSuggestQty it := by
  have hrp : ∃ rp, it.reorder_point = some rp := by
    cases hr : it.reorder_point with
    | none =>
      unfold suggestFilter at hp
      rw [hr] at hp
      simp at hp
    | some rp => exact ⟨rp, rfl⟩
  obtain ⟨rp, hrp⟩ := hrp
  unfold qty_to_order specSuggestQty
  cases it.max_stock_level with
  | some m => rfl
  | none =>
    cases it.reorder_quantity with
    | some rq => rfl
    | none =>
      rw [hrp]
      unfold pyOrRat
      dsimp only
      by_cases hz : rp = 0
      · rw [if_pos hz, if_pos hz]
        decide
      · rw [if_neg hz, if_neg hz]
        ring

theorem suggestLoop_spec (supplier_id : Id) :
    ∀ l : List InventoryItem,
      (∀ it ∈ l, suggestFilter supplier_id it = true →
        0 < specSuggestQty it → 0 < pyOrRat it.cost_price 0) →
      suggestLoop (l.filter (suggestFilter supplier_id)) =
        .ok (l.filterMap (fun it =>
          if suggestFilter supplier_id it then
            (if 0 < specSuggestQty it then
              some { item_id := it.id, quantity := specSuggestQty it,
                     unit_cost := pyOrRat it.cost_price 0 }
            else none)
          else none)) := by
  intro l
  induction l with
  | nil => intro _; rfl
  | cons it rest ih =>
    intro h
    have hrest := fun x hx => h x (List.mem_cons_of_mem it hx)
    cases hp : suggestFilter supplier_id it with
    | false =>
      rw [List.filter_cons, List.filterMap_cons, hp]
      simp only [Bool.false_eq_true, if_false]
      exact ih hrest
    | true =>
      have hq := qty_to_order_spec supplier_id it hp
      rw [List.filter_cons, List.filterMap_cons, hp]
      simp only [if_true]
      unfold suggestLoop
      rw [hq]
      by_cases hpos : 0 < specSuggestQty it
      · rw [if_pos hpos, if_pos hpos]
        rw [if_neg (not_le.mpr (h it (List.mem_cons_self it rest) hp hpos))]
        rw [ih hrest]
      · rw [if_neg hpos, if_neg hpos]
        exact ih hrest

theorem suggestLoop_error (supplier_id : Id) :
    ∀ l : List InventoryItem,
      (∃ it ∈ l, suggestFilter supplier_id it = true ∧
        0 < specSuggestQty it ∧ pyOrRat it.cost_price 0 ≤ 0) →
      suggestLoop (l.filter (suggestFilter supplier_id)) = .error .validationError := by
  intro l
  induction l with
  | nil =>
    intro h
    obtain ⟨x, hx, _⟩ := h
    exact absurd hx (List.not_mem_nil x)
  | cons it rest ih =>
    intro h
    obtain ⟨x, hx, hxf, hxq, hxc⟩ := h
    rcases List.mem_cons.mp hx with hhd | hxr
    · subst hhd
      have hq := qty_to_order_spec supplier_id x hxf
      rw [List.filter_cons, hxf]
      simp only [if_true]
      unfold suggestLoop
      rw [hq, if_pos hxq, if_pos hxc]
    · cases hp : suggestFilter supplier_id it with
      | false =>
        rw [List.filter_cons, hp]
        simp only [Bool.false_eq_true, if_false]
        exact ih ⟨x, hxr, hxf, hxq, hxc⟩
      | true =>
        have hq := qty_to_order_spec supplier_id it hp
        rw [List.filter_cons, hp]
        simp only [if_true]
        unfold suggestLoop
        rw [hq]
        by_cases hpos : 0 < specSuggestQty it
        · rw [if_pos hpos]
          by_cases hc : pyOrRat it.cost_price 0 ≤ 0
          · rw [if_pos hc]
          · rw [if_neg hc, ih ⟨x, hxr, hxf, hxq, hxc⟩]
        · rw [if_neg hpos]
          exact ih ⟨x, hxr, hxf, hxq, hxc⟩

/-- C9 as amended: when every selected item with a positive suggested
quantity carries a positive effective unit cost, the endpoint returns
exactly the amended rule's list — the active supplier items having a
reorder point with current_stock at or below it and a positive suggested
quantity, the quantity being the max-level gap, else the configured reorder
quantity, else 2 * reorder_point for a nonzero reorder point and 20 for a
zero one (items with no reorder point are excluded by the low-stock
filter); and when some selected item with a positive suggested quantity has
cost_price None, zero or negative, the endpoint instead raises the schema's
unit_cost validation error and returns no list at all. -/
theorem c9_reorder_suggestion_rule (db : Db) (supplier_id : Id) :
    ((∀ it ∈ db.items, suggestFilter supplier_id it = true →
        0 < specSuggestQty it → 0 < pyOrRat it.cost_price 0) →
      suggest_po_items db supplier_id = .ok (specSuggest db supplier_id)) ∧
    ((∃ it ∈ db.items, suggestFilter supplier_id it = true ∧
        0 < specSuggestQty it ∧ pyOrRat it.cost_price 0 ≤ 0) →
      suggest_po_items db supplier_id = .error .validationError) := by
  constructor
  · intro h
    unfold suggest_po_items specSuggest
    exact suggestLoop_spec supplier_id db.items h
  · intro h
    unfold suggest_po_items
    exact suggestLoop_error supplier_id db.items h

/-- An active supplier item below its reorder point whose cost price is
absent: its suggestion line would carry unit_cost 0 and fails validation. -/
def itemC9err : InventoryItem :=
  { baseItem with
    id := 2
    sku := pystr "SKU-2"
    supplier_id := some 5
    current_stock := 0
    reorder_point := some 4
    cost_price := none }

/-- A catalog holding only that cost-less item. -/
def dbC9err : Db := { emptyDb with items := [itemC9err] }

theorem c9_witness :
    suggest_po_items dbC9 5 = .ok [{ item_id := 1, quantity := 20, unit_cost := 3 }] ∧
    suggest_po_items dbC9err 5 = .error .validationError := by
  constructor
  · have h := (c9_reorder_suggestion_rule dbC9 5).1 (by decide)
    rw [h]
    decide
  · exact (c9_reorder_suggestion_rule dbC9err 5).2
      ⟨itemC9err, by decide, by decide, by decide, by decide⟩

/-! ## Claim C10 -/

/-- C10: when a bulk-import row updates an existing item (exact SKU match),
current_stock is unconditionally overwritten with the parsed Stock value
(defaulting to 0 when the cell is absent, blank or unparsable), barcode and
description are overwritten (None when blank), and every field whose parsed
value is None — category, supplier, min stock, cost price — keeps its stored
value. -/
theorem c10_import_update_overwrites (user_loc : Option Id) (idx : Nat)
    (st : BulkImportState) (row : CsvRow) (sku : PyStr) (sp : Rat) (lid : Id)
    (item : InventoryItem)
    (hnb : rowIsBlank row = false)
    (hsku : pyStrip (cellGetD row.sku) = sku)
    (hskune : sku ≠ [])
    (hname : pyStrip (cellGetD row.name) ≠ [])
    (hspne : pyStrip (cellGetD row.selling_price) ≠ [])
    (hsp : parse_float (some (pyStrip (cellGetD row.selling_price))) none = some sp)
    (hsppos : 0 < sp)
    (hloc : resolveLocation st.db.locations user_loc row.location = some lid)
    (hfind : st.db.items.find? (fun it => it.sku == sku) = some item) :
    ∃ itemNew,
      csv_import_row user_loc idx st row
        = { st with db := setItem st.db itemNew, n_updated := st.n_updated + 1 } ∧
      itemNew.id = item.id ∧
      itemNew.current_stock = (parse_float row.stock (some 0)).getD 0 ∧
      (row.stock = none → itemNew.current_stock = 0) ∧
      (row.stock = some [] → itemNew.current_stock = 0) ∧
      (parse_float row.stock none = none → itemNew.current_stock = 0) ∧
      itemNew.barcode = pyOrNone row.barcode ∧
      itemNew.description = pyOrNone row.description ∧
      itemNew.selling_price = sp ∧
      itemNew.location_id = lid ∧
      (parse_float row.min_stock none = none → itemNew.min_stock_level = item.min_stock_level) ∧
      (parse_float row.cost_price none = none → itemNew.cost_price = item.cost_price) ∧
      (pyLower (pyStrip (cellGetD row.category)) = [] → itemNew.category_id = item.category_id) ∧
      (pyLower (pyStrip (cellGetD row.supplier)) = [] → itemNew.supplier_id = item.supplier_id) := by
  have hstep : csv_import_row user_loc idx st row
      = { st with
          db := setItem st.db
            { item with
              sku := sku
              barcode := pyOrNone row.barcode
              name := pyStrip (cellGetD row.name)
              description := pyOrNone row.description
              category_id :=
                (match (if pyLower (pyStrip (cellGetD row.category)) = [] then none
                    else dictLookupCat st.db.categories (pyLower (pyStrip (cellGetD row.category)))) with
                  | some c => some c
                  | none => item.category_id)
              location_id := lid
              supplier_id :=
                (match (if pyLower (pyStrip (cellGetD row.supplier)) = [] then none
                    else dictLookupSup st.db.suppliers (pyLower (pyStrip (cellGetD row.supplier)))) with
                  | some s => some s
                  | none => item.supplier_id)
              current_stock := (parse_float row.stock (some 0)).getD 0
              min_stock_level :=
                (match parse_float row.min_stock none with
                  | some v => some v
                  | none => item.min_stock_level)
              cost_price :=
                (match parse_float row.cost_price none with
                  | some v => some v
                  | none => item.cost_price)
              selling_price := sp
              unit := pyStrip (pyOrStr row.unit (pystr "pcs")) }
          n_updated := st.n_updated + 1 } := by
    unfold csv_import_row
    rw [hnb]
    simp only [Bool.false_eq_true, if_false]
    rw [hsku, if_neg hskune, if_neg hname, if_neg hspne, hsp]
    dsimp only
    rw [if_neg (not_le.mpr hsppos), hloc]
    dsimp only
    rw [hfind]
  refine ⟨_, hstep, rfl, rfl, ?_, ?_, ?_, rfl, rfl, rfl, rfl, ?_, ?_, ?_, ?_⟩
  · intro hs
    rw [hs]
    rfl
  · intro hs
    rw [hs]
    rfl
  · intro hs
    unfold parse_float at hs ⊢
    cases hrow : row.stock with
    | none => rfl
    | some s =>
      rw [hrow] at hs
      dsimp only at hs ⊢
      by_cases hse : s = []
      · rw [if_pos hse]
        rfl
      · rw [if_neg hse] at hs ⊢
        cases hpf : pyFloatOf (pyReplaceCommaDot (pyStrip s)) with
        | none => rfl
        | some q =>
          rw [hpf] at hs
          simp at hs
  · intro hms
    rw [hms]
  · intro hcp
    rw [hcp]
  · intro hcat
    rw [if_pos hcat]
  · intro hsup
    rw [if_pos hsup]

/-- An existing item carrying values in every optional field the claim says
an absent cell must preserve. -/
def itemC10 : InventoryItem :=
  { baseItem with
    min_stock_level := some 7
    cost_price := some 3
    category_id := some 4
    supplier_id := some 5 }

/-- A database with that item and the reference location. -/
def dbC10 : Db :=
  { emptyDb with
    items := [itemC10]
    locations := [{ id := 1, name := pystr "Main Store" }] }

/-- An update row for SKU-1 with no Stock value, a blank barcode and absent
optional columns. -/
def rowC10 : CsvRow :=
  { sku := some (pystr "SKU-1")
    barcode := some (pystr "")
    name := some (pystr "Widget A+")
    description := none
    category := none
    location := some (pystr "Main Store")
    supplier := none
    stock := none
    min_stock := some (pystr "x")
    cost_price := none
    selling_price := some (pystr "250")
    unit := none }

theorem c10_witness :
    ∃ itemNew,
      csv_import_row none 2 { db := dbC10, n_imported := 0, n_updated := 0, errors := [] } rowC10
        = { db := setItem dbC10 itemNew, n_imported := 0, n_updated := 1, errors := [] } ∧
      itemNew.id = 1 ∧
      itemNew.current_stock = 0 ∧
      itemNew.barcode = none ∧
      itemNew.description = none ∧
      itemNew.selling_price = 250 ∧
      itemNew.min_stock_level = some 7 ∧
      itemNew.cost_price = some 3 ∧
      itemNew.category_id = some 4 ∧
      itemNew.supplier_id = some 5 := by
  obtain ⟨itemNew, hstep, hid, hcs, hnone, _, _, hbar, hdesc, hsp, _, hms, hcp, hcat, hsup⟩ :=
    c10_import_update_overwrites none 2
      { db := dbC10, n_imported := 0, n_updated := 0, errors := [] } rowC10
      (pystr "SKU-1") 250 1 itemC10
      (by decide) (by decide) (by decide) (by decide) (by decide) (by decide)
      (by decide) (by decide) (by decide)
  refine ⟨itemNew, hstep, hid, ?_, ?_, ?_, hsp, ?_, ?_, ?_, ?_⟩
  · exact hnone (by decide)
  · rw [hbar]; decide
  · rw [hdesc]; decide
  · rw [hms (by decide)]; decide
  · rw [hcp (by decide)]; decide
  · rw [hcat (by decide)]; decide
  · rw [hsup (by decide)]; decide

/-! ## Claim C4: lemmas about the receipt loop -/

theorem find?_isSome_update {α : Type} (key : α → Id) (l : List α) (a' : α) (i : Id) :
    ((l.map (fun x => if key x == key a' then a' else x)).find? (fun x => key x == i)).isSome
      = (l.find? (fun x => key x == i)).isSome := by
  induction l with
  | nil => rfl
  | cons x xs ih =>
    by_cases hx : key x = key a'
    · have hmap : (x :: xs).map (fun y => if key y == key a' then a' else y)
          = a' :: xs.map (fun y => if key y == key a' then a' else y) := by
        simp [hx]
      rw [hmap, List.find?_cons, List.find?_cons]
      have hsame : (key a' == i) = (key x == i) := by rw [hx]
      rw [hsame]
      cases h2 : (key x == i) with
      | true => rfl
      | false => exact ih
    · have hx' : (key x == key a') = false := by
        simp only [beq_eq_false_iff_ne, ne_eq]
        exact hx
      have hhead : (if key x == key a' then a' else x) = x := by
        rw [hx']
        simp
      have hmap : (x :: xs).map (fun y => if key y == key a' then a' else y)
          = x :: xs.map (fun y => if key y == key a' then a' else y) := by
        rw [List.map_cons, hhead]
      rw [hmap, List.find?_cons, List.find?_cons]
      cases h2 : (key x == i) with
      | true => rfl
      | false => exact ih

theorem findItem_isSome_setItem (d : Db) (it' : InventoryItem) (i : Id) :
    (findItem (setItem d it') i).isSome = (findItem d i).isSome := by
  unfold findItem setItem
  exact find?_isSome_update InventoryItem.id d.items it' i

theorem findItem_isSome_addMovement (d : Db) (m : StockMovement) (i : Id) :
    (findItem (addMovement d m) i).isSome = (findItem d i).isSome := rfl

theorem itemStock_setItem_other (d : Db) (it' : InventoryItem) (i : Id) (hne : i ≠ it'.id) :
    itemStock (setItem d it') i = itemStock d i := by
  unfold itemStock findItem setItem
  rw [find?_update_other InventoryItem.id d.items it' i hne]

/-- The receipt loop leaves every table except items and movements alone. -/
theorem receive_po_lines_tables (uid poid : Id) (onum : PyStr) :
    ∀ (l : List PurchaseOrderItem) (d : Db),
      (receive_po_lines uid poid onum d l).1.purchase_orders = d.purchase_orders ∧
      (receive_po_lines uid poid onum d l).1.customers = d.customers ∧
      (receive_po_lines uid poid onum d l).1.sales = d.sales ∧
      (receive_po_lines uid poid onum d l).1.locations = d.locations := by
  intro l
  induction l with
  | nil => intro d; exact ⟨rfl, rfl, rfl, rfl⟩
  | cons li rest ih =>
    intro d
    unfold receive_po_lines
    cases hfind : findItem d li.item_id with
    | none => exact ih d
    | some inv => exact ih _

/-- Item presence is invariant under the receipt loop. -/
theorem receive_po_lines_isSome (uid poid : Id) (onum : PyStr) :
    ∀ (l : List PurchaseOrderItem) (d : Db) (i : Id),
      (findItem (receive_po_lines uid poid onum d l).1 i).isSome = (findItem d i).isSome := by
  intro l
  induction l with
  | nil => intro d i; rfl
  | cons li rest ih =>
    intro d i
    unfold receive_po_lines
    cases hfind : findItem d li.item_id with
    | none => exact ih d i
    | some inv =>
      dsimp only
      rw [ih _ i, findItem_isSome_addMovement, findItem_isSome_setItem]

/-- Lines are returned with received_quantity set to the ordered quantity,
provided every line's item row exists. -/
theorem receive_po_lines_items_out (uid poid : Id) (onum : PyStr) :
    ∀ (l : List PurchaseOrderItem) (d : Db),
      (∀ li ∈ l, (findItem d li.item_id).isSome = true) →
      (receive_po_lines uid poid onum d l).2
        = l.map (fun li => { li with received_quantity := li.quantity }) := by
  intro l
  induction l with
  | nil => intro d _; rfl
  | cons li rest ih =>
    intro d h
    unfold receive_po_lines
    cases hfind : findItem d li.item_id with
    | none =>
      have hh := h li (List.mem_cons_self li rest)
      rw [hfind] at hh
      simp at hh
    | some inv =>
      dsimp only
      rw [List.map_cons]
      have hrest : ∀ li' ∈ rest, (findItem
          (addMovement (setItem d { inv with current_stock := inv.current_stock + li.quantity })
            (receiveMovement uid poid onum inv li)) li'.item_id).isSome = true := by
        intro li' hmem
        rw [findItem_isSome_addMovement, findItem_isSome_setItem]
        exact h li' (List.mem_cons_of_mem li hmem)
      rw [ih _ hrest]

/-- The receipt loop appends exactly one purchase movement per line, in line
order, each carrying the line's quantity and cost and referencing the order,
provided every line's item row exists. -/
theorem receive_po_lines_movements (uid poid : Id) (onum : PyStr) :
    ∀ (l : List PurchaseOrderItem) (d : Db),
      (∀ li ∈ l, (findItem d li.item_id).isSome = true) →
      ∃ ms, (receive_po_lines uid poid onum d l).1.movements = d.movements ++ ms ∧
        List.Forall₂ (fun li m =>
          m.item_id = li.item_id ∧ m.movement_type = MovementType.purchase ∧
          m.quantity = li.quantity ∧ m.unit_cost = some li.unit_cost ∧
          m.reference_type = some (pystr "purchase_order") ∧ m.reference_id = some poid) l ms := by
  intro l
  induction l with
  | nil => intro d _; exact ⟨[], by simp [receive_po_lines], List.Forall₂.nil⟩
  | cons li rest ih =>
    intro d h
    unfold receive_po_lines
    cases hfind : findItem d li.item_id with
    | none =>
      have hh := h li (List.mem_cons_self li rest)
      rw [hfind] at hh
      simp at hh
    | some inv =>
      dsimp only
      have hid := findItem_id d li.item_id inv hfind
      have hrest : ∀ li' ∈ rest, (findItem
          (addMovement (setItem d { inv with current_stock := inv.current_stock + li.quantity })
            (receiveMovement uid poid onum inv li)) li'.item_id).isSome = true := by
        intro li' hmem
        rw [findItem_isSome_addMovement, findItem_isSome_setItem]
        exact h li' (List.mem_cons_of_mem li hmem)
      obtain ⟨ms, hms, hfa⟩ := ih _ hrest
      refine ⟨receiveMovement uid poid onum inv li :: ms, ?_, ?_⟩
      · rw [hms]
        show (d.movements ++ [_]) ++ ms = _
        rw [List.append_assoc]
        rfl
      · exact List.Forall₂.cons ⟨hid, rfl, rfl, rfl, rfl, rfl⟩ hfa

/-- Items not named by any remaining line keep their stock through the
receipt loop. -/
theorem receive_po_lines_stock_other (uid poid : Id) (onum : PyStr) :
    ∀ (l : List PurchaseOrderItem) (d : Db) (i : Id),
      (∀ li ∈ l, li.item_id ≠ i) →
      itemStock (receive_po_lines uid poid onum d l).1 i = itemStock d i := by
  intro l
  induction l with
  | nil => intro d i _; rfl
  | cons li rest ih =>
    intro d i h
    unfold receive_po_lines
    cases hfind : findItem d li.item_id with
    | none => exact ih d i (fun li' hm => h li' (List.mem_cons_of_mem li hm))
    | some inv =>
      dsimp only
      have hid := findItem_id d li.item_id inv hfind
      rw [ih _ i (fun li' hm => h li' (List.mem_cons_of_mem li hm))]
      rw [itemStock_addMovement]
      apply itemStock_setItem_other
      show i ≠ inv.id
      rw [hid]
      exact fun hc => h li (List.mem_cons_self li rest) hc.symm

/-- When line item ids are distinct and all items exist, each line's item is
credited exactly its ordered quantity. -/
theorem receive_po_lines_stock (uid poid : Id) (onum : PyStr) :
    ∀ (l : List PurchaseOrderItem) (d : Db),
      (∀ li ∈ l, (findItem d li.item_id).isSome = true) →
      (l.map PurchaseOrderItem.item_id).Nodup →
      ∀ li ∈ l, itemStock (receive_po_lines uid poid onum d l).1 li.item_id
        = (itemStock d li.item_id).map (fun s => s + li.quantity) := by
  intro l
  induction l with
  | nil => intro d _ _ li hm; cases hm
  | cons li0 rest ih =>
    intro d h hnd li hm
    have hnd' : (∀ x ∈ rest, ¬ x.item_id = li0.item_id)
        ∧ (List.map PurchaseOrderItem.item_id rest).Nodup := by
      simpa using hnd
    unfold receive_po_lines
    cases hfind : findItem d li0.item_id with
    | none =>
      have hh := h li0 (List.mem_cons_self li0 rest)
      rw [hfind] at hh
      simp at hh
    | some inv =>
      dsimp only
      have hid := findItem_id d li0.item_id inv hfind
      rcases List.mem_cons.mp hm with hhead | htail
      · subst hhead
        have hnotin : ∀ li' ∈ rest, li'.item_id ≠ li.item_id := fun li' hm' => hnd'.1 li' hm'
        rw [receive_po_lines_stock_other uid poid onum rest
          (addMovement (setItem d { inv with current_stock := inv.current_stock + li.quantity })
            (receiveMovement uid poid onum inv li)) li.item_id hnotin]
        rw [itemStock_addMovement]
        have hfind' : findItem d inv.id = some inv := by rw [hid]; exact hfind
        have hset := findItem_setItem_self d inv
          { inv with current_stock := inv.current_stock + li.quantity } hfind' rfl
        unfold itemStock
        rw [← hid, hset, hfind']
        rfl
      · have hne : li.item_id ≠ inv.id := by
          rw [hid]
          intro hc
          exact hnd'.1 li htail hc
        have hrest : ∀ li' ∈ rest, (findItem
            (addMovement (setItem d { inv with current_stock := inv.current_stock + li0.quantity })
              (receiveMovement uid poid onum inv li0)) li'.item_id).isSome = true := by
          intro li' hmem
          rw [findItem_isSome_addMovement, findItem_isSome_setItem]
          exact h li' (List.mem_cons_of_mem li0 hmem)
        have hstep := ih _ hrest hnd'.2 li htail
        have hpres : itemStock
            (addMovement (setItem d { inv with current_stock := inv.current_stock + li0.quantity })
              (receiveMovement uid poid onum inv li0)) li.item_id = itemStock d li.item_id := by
          rw [itemStock_addMovement]
          exact itemStock_setItem_other d _ li.item_id hne
        rw [hstep, hpres]

theorem findPO_id (db : Db) (i : Id) (po : PurchaseOrder)
    (h : findPO db i = some po) : po.id = i := by
  unfold findPO at h
  have := List.find?_some h
  simpa using this

theorem findPO_setPO_self (db : Db) (po po' : PurchaseOrder)
    (hfind : findPO db po.id = some po) (hid : po'.id = po.id) :
    findPO (setPO db po') po.id = some po' := by
  unfold findPO setPO
  rw [← hid]
  apply find?_update_self PurchaseOrder.id
  unfold findPO at hfind
  rw [hid, hfind]
  rfl

/-- C4: a purchase order whose status is received rejects every further
update call and leaves the database untouched; and a status update into
received (from any non-received status) sets received_date, marks every
line's received_quantity with its ordered quantity, appends exactly one
purchase movement per line referencing the order, credits every line's
quantity to its item's stock, and leaves the order in the terminal received
state in which any repeated update attempt is rejected with no further
change — so stock is credited exactly once in total. -/
theorem c4_po_receive_terminal_exactly_once (db : Db) (po_id : Id)
    (upd : PurchaseOrderUpdate) (uid : Id) (now : Nat) (po : PurchaseOrder)
    (hfind : findPO db po_id = some po) :
    (po.status = .received →
      update_purchase_order db po_id upd uid now = .error .cannotUpdateReceived ∧
      dbAfterPOUpdate db po_id upd uid now = db) ∧
    (po.status ≠ .received → upd.status = some .received →
      (∀ li ∈ po.items, (findItem db li.item_id).isSome = true) →
      (po.items.map PurchaseOrderItem.item_id).Nodup →
      ∃ db' po',
        update_purchase_order db po_id upd uid now = .ok (db', po') ∧
        dbAfterPOUpdate db po_id upd uid now = db' ∧
        po'.status = .received ∧
        po'.received_date = some now ∧
        po'.items = po.items.map (fun li => { li with received_quantity := li.quantity }) ∧
        (∃ ms, db'.movements = db.movements ++ ms ∧
          List.Forall₂ (fun li m =>
            m.item_id = li.item_id ∧ m.movement_type = MovementType.purchase ∧
            m.quantity = li.quantity ∧ m.unit_cost = some li.unit_cost ∧
            m.reference_type = some (pystr "purchase_order") ∧ m.reference_id = some po.id)
            po.items ms) ∧
        (∀ li ∈ po.items, itemStock db' li.item_id
          = (itemStock db li.item_id).map (fun s => s + li.quantity)) ∧
        (∀ upd₂ now₂,
          update_purchase_order db' po_id upd₂ uid now₂ = .error .cannotUpdateReceived ∧
          dbAfterPOUpdate db' po_id upd₂ uid now₂ = db')) := by
  have hpid := findPO_id db po_id po hfind
  constructor
  · intro hst
    have herr : update_purchase_order db po_id upd uid now = .error .cannotUpdateReceived := by
      unfold update_purchase_order
      rw [hfind]
      dsimp only
      rw [if_pos hst]
    refine ⟨herr, ?_⟩
    unfold dbAfterPOUpdate
    rw [herr]
  · intro hst hupd hall hnd
    have hok : update_purchase_order db po_id upd uid now
        = .ok (setPO (receive_po_lines uid po.id po.order_number db po.items).1
            { po with
              status := .received
              received_date := some now
              items := (receive_po_lines uid po.id po.order_number db po.items).2
              notes := (match upd.notes with | some n => some n | none => po.notes)
              expected_date :=
                (match upd.expected_date with | some e => some e | none => po.expected_date)
              supplier_id :=
                (match upd.supplier_id with | some s => s | none => po.supplier_id) },
          { po with
            status := .received
            received_date := some now
            items := (receive_po_lines uid po.id po.order_number db po.items).2
            notes := (match upd.notes with | some n => some n | none => po.notes)
            expected_date :=
              (match upd.expected_date with | some e => some e | none => po.expected_date)
            supplier_id :=
              (match upd.supplier_id with | some s => s | none => po.supplier_id) }) := by
      unfold update_purchase_order
      rw [hfind]
      dsimp only
      rw [if_neg hst, hupd]
      dsimp only
      rw [if_pos ⟨rfl, hst⟩]
    refine ⟨_, _, hok, ?_, rfl, rfl, ?_, ?_, ?_, ?_⟩
    · unfold dbAfterPOUpdate
      rw [hok]
    · show (receive_po_lines uid po.id po.order_number db po.items).2 = _
      exact receive_po_lines_items_out uid po.id po.order_number po.items db hall
    · obtain ⟨ms, hms, hfa⟩ :=
        receive_po_lines_movements uid po.id po.order_number po.items db hall
      exact ⟨ms, hms, hfa⟩
    · intro li hm
      show itemStock (receive_po_lines uid po.id po.order_number db po.items).1 li.item_id = _
      exact receive_po_lines_stock uid po.id po.order_number po.items db hall hnd li hm
    · intro upd₂ now₂
      have hpos : findPO (receive_po_lines uid po.id po.order_number db po.items).1 po.id
          = some po := by
        unfold findPO
        rw [(receive_po_lines_tables uid po.id po.order_number po.items db).1]
        unfold findPO at hfind
        rw [hpid]
        exact hfind
      have hfind₂ : findPO (setPO (receive_po_lines uid po.id po.order_number db po.items).1
          { po with
            status := .received
            received_date := some now
            items := (receive_po_lines uid po.id po.order_number db po.items).2
            notes := (match upd.notes with | some n => some n | none => po.notes)
            expected_date :=
              (match upd.expected_date with | some e => some e | none => po.expected_date)
            supplier_id :=
              (match upd.supplier_id with | some s => s | none => po.supplier_id) }) po_id
          = some { po with
            status := .received
            received_date := some now
            items := (receive_po_lines uid po.id po.order_number db po.items).2
            notes := (match upd.notes with | some n => some n | none => po.notes)
            expected_date :=
              (match upd.expected_date with | some e => some e | none => po.expected_date)
            supplier_id :=
              (match upd.supplier_id with | some s => s | none => po.supplier_id) } := by
        rw [← hpid]
        exact findPO_setPO_self (receive_po_lines uid po.id po.order_number db po.items).1 po _
          hpos rfl
      have herr₂ : update_purchase_order
          (setPO (receive_po_lines uid po.id po.order_number db po.items).1
            { po with
              status := .received
              received_date := some now
              items := (receive_po_lines uid po.id po.order_number db po.items).2
              notes := (match upd.notes with | some n => some n | none => po.notes)
              expected_date :=
                (match upd.expected_date with | some e => some e | none => po.expected_date)
              supplier_id :=
                (match upd.supplier_id with | some s => s | none => po.supplier_id) })
          po_id upd₂ uid now₂ = .error .cannotUpdateReceived := by
        unfold update_purchase_order
        rw [hfind₂]
        dsimp only
        rw [if_pos rfl]
      refine ⟨herr₂, ?_⟩
      unfold dbAfterPOUpdate
      rw [herr₂]

/-- A purchase order already in the terminal received state. -/
def poRec : PurchaseOrder :=
  { poFix with id := 2, order_number := pystr "PO-2", status := .received }

/-- A database holding a pending and a received order over the same item. -/
def dbC4 : Db := { emptyDb with items := [baseItem], purchase_orders := [poFix, poRec] }

theorem c4_witness :
    (update_purchase_order dbC4 2 poUpdC1 7 99 = .error .cannotUpdateReceived ∧
      dbAfterPOUpdate dbC4 2 poUpdC1 7 99 = dbC4) ∧
    (∃ db' po',
      update_purchase_order dbC4 1 poUpdC1 7 99 = .ok (db', po') ∧
      po'.status = POStatus.received ∧
      po'.received_date = some 99 ∧
      (∀ upd₂ now₂,
        update_purchase_order db' 1 upd₂ 7 now₂ = .error .cannotUpdateReceived)) := by
  constructor
  · exact (c4_po_receive_terminal_exactly_once dbC4 2 poUpdC1 7 99 poRec (by decide)).1
      (by decide)
  · obtain ⟨db', po', hok, _, hst, hdate, _, _, _, hterm⟩ :=
      (c4_po_receive_terminal_exactly_once dbC4 1 poUpdC1 7 99 poFix (by decide)).2
        (by decide) (by decide) (by decide) (by decide)
    exact ⟨db', po', hok, hst, hdate, fun upd₂ now₂ => (hterm upd₂ now₂).1⟩

/-! ## Claim C8: the export serialization parses back

The importer re-reads every numeric cell the exporter wrote with
parse_float. The lemmas below show that the fixed-point rendering of a
Numeric column value is stripped of nothing, contains no comma, and parses
back to the value itself, so an exported selling price passes the import
checks. -/

theorem dropWhile_eq_self_of_all {α : Type} (p : α → Bool) (l : List α)
    (h : ∀ c ∈ l, p c = false) : l.dropWhile p = l := by
  cases l with
  | nil => rfl
  | cons c cs =>
    rw [List.dropWhile_cons, h c (List.mem_cons_self c cs)]
    simp

theorem pyStrip_eq_self (l : PyStr) (h : ∀ c ∈ l, isPySpace c = false) : pyStrip l = l := by
  unfold pyStrip
  rw [dropWhile_eq_self_of_all _ l h]
  rw [dropWhile_eq_self_of_all _ l.reverse (fun c hc => h c (List.mem_reverse.mp hc))]
  exact List.reverse_reverse l

theorem pyReplaceCommaDot_eq_self (l : PyStr) (h : ∀ c ∈ l, c ≠ ',') :
    pyReplaceCommaDot l = l := by
  unfold pyReplaceCommaDot
  have hc : ∀ c ∈ l, (if c = ',' then '.' else c) = id c := fun c hc => if_neg (h c hc)
  rw [List.map_congr_left hc, List.map_id]

/-- The character facts the parsing lemmas need about rendered digits. -/
theorem digitChar_facts : ∀ d : Fin 10,
    isDigitChar (Char.ofNat (48 + d.val)) = true ∧
    digitValue (Char.ofNat (48 + d.val)) = d.val := by decide

theorem digitCharMod (n : Nat) :
    isDigitChar (Char.ofNat (48 + n % 10)) = true ∧
    digitValue (Char.ofNat (48 + n % 10)) = n % 10 :=
  digitChar_facts ⟨n % 10, Nat.mod_lt _ (by norm_num)⟩

theorem isDigitChar_ne (c : Char) (hc : isDigitChar c = true) :
    c ≠ '.' ∧ c ≠ ',' ∧ c ≠ '-' ∧ c ≠ '+' ∧ isPySpace c = false := by
  refine ⟨?_, ?_, ?_, ?_, ?_⟩
  · intro h; rw [h] at hc; exact absurd hc (by decide)
  · intro h; rw [h] at hc; exact absurd hc (by decide)
  · intro h; rw [h] at hc; exact absurd hc (by decide)
  · intro h; rw [h] at hc; exact absurd hc (by decide)
  · cases hsp : isPySpace c with
    | false => rfl
    | true =>
      exfalso
      unfold isPySpace at hsp
      have : c = ' ' ∨ c = '\t' ∨ c = '\n' ∨ c = '\r' := by
        simpa [decide_eq_true_eq] using hsp
      rcases this with h | h | h | h <;> (rw [h] at hc; exact absurd hc (by decide))

theorem natStrGo_fuel : ∀ (n : Nat), ∀ (fuel : Nat) (acc : PyStr), n < fuel →
    natStrGo fuel n acc = natStrGo (n + 1) n acc := by
  intro n
  induction n using Nat.strong_induction_on with
  | _ n ih =>
    intro fuel acc hf
    match fuel, hf with
    | f + 1, hf =>
      show natStrGo (f + 1) n acc = natStrGo (n + 1) n acc
      unfold natStrGo
      by_cases h10 : n < 10
      · rw [if_pos h10, if_pos h10]
      · rw [if_neg h10, if_neg h10]
        have hlt : n / 10 < n := Nat.div_lt_self (by omega) (by norm_num)
        rw [ih (n / 10) hlt f _ (by omega), ih (n / 10) hlt n _ (by omega)]

theorem natStrGo_acc : ∀ (n : Nat) (acc : PyStr),
    natStrGo (n + 1) n acc = natDigitsStr n ++ acc := by
  intro n
  induction n using Nat.strong_induction_on with
  | _ n ih =>
    intro acc
    unfold natDigitsStr
    show natStrGo (n + 1) n acc = natStrGo (n + 1) n [] ++ acc
    unfold natStrGo
    by_cases h10 : n < 10
    · rw [if_pos h10, if_pos h10]
      rfl
    · rw [if_neg h10, if_neg h10]
      have hlt : n / 10 < n := Nat.div_lt_self (by omega) (by norm_num)
      rw [natStrGo_fuel (n / 10) n (Char.ofNat (48 + n % 10) :: acc) (by omega)]
      rw [ih (n / 10) hlt (Char.ofNat (48 + n % 10) :: acc)]
      rw [natStrGo_fuel (n / 10) n [Char.ofNat (48 + n % 10)] (by omega)]
      rw [ih (n / 10) hlt [Char.ofNat (48 + n % 10)]]
      rw [List.append_assoc]
      rfl

theorem natDigitsStr_eq (n : Nat) :
    natDigitsStr n = if n < 10 then [Char.ofNat (48 + n % 10)]
      else natDigitsStr (n / 10) ++ [Char.ofNat (48 + n % 10)] := by
  by_cases h10 : n < 10
  · rw [if_pos h10]
    unfold natDigitsStr natStrGo
    rw [if_pos h10]
  · rw [if_neg h10]
    conv_lhs => unfold natDigitsStr natStrGo
    rw [if_neg h10]
    have hlt : n / 10 < n := Nat.div_lt_self (by omega) (by norm_num)
    rw [natStrGo_fuel (n / 10) n _ (by omega), natStrGo_acc]

theorem natDigitsStr_ne_nil (n : Nat) : natDigitsStr n ≠ [] := by
  rw [natDigitsStr_eq]
  by_cases h10 : n < 10
  · rw [if_pos h10]
    exact List.cons_ne_nil _ _
  · rw [if_neg h10]
    exact List.append_ne_nil_of_right_ne_nil _ (List.cons_ne_nil _ _)

theorem natDigitsStr_digits : ∀ (n : Nat), ∀ c ∈ natDigitsStr n, isDigitChar c = true := by
  intro n
  induction n using Nat.strong_induction_on with
  | _ n ih =>
    intro c hc
    rw [natDigitsStr_eq] at hc
    by_cases h10 : n < 10
    · rw [if_pos h10] at hc
      rcases List.mem_singleton.mp hc with h
      rw [h]
      exact (digitCharMod n).1
    · rw [if_neg h10] at hc
      rcases List.mem_append.mp hc with h | h
      · exact ih (n / 10) (Nat.div_lt_self (by omega) (by norm_num)) c h
      · rw [List.mem_singleton.mp h]
        exact (digitCharMod n).1

theorem natDigitsStr_length_le : ∀ (k n : Nat), 1 ≤ k → n < 10 ^ k →
    (natDigitsStr n).length ≤ k := by
  intro k
  induction k with
  | zero => intro n h; omega
  | succ k ihk =>
    intro n _ hn
    rw [natDigitsStr_eq]
    by_cases h10 : n < 10
    · rw [if_pos h10]
      simp
    · rw [if_neg h10]
      rw [List.length_append]
      have hk1 : 1 ≤ k := by
        by_contra hk
        have : k = 0 := by omega
        rw [this] at hn
        simp at hn
        omega
      have hdiv : n / 10 < 10 ^ k := by
        have : n < 10 ^ k * 10 := by
          rw [← pow_succ]
          exact hn
        omega
      have := ihk (n / 10) hk1 hdiv
      simp
      omega

/-- Value of a most-significant-first digit string folded onto an
accumulator, exactly as pyFloatAux accumulates it. -/
def bigVal (a : Nat) (l : PyStr) : Nat :=
  l.foldl (fun x c => 10 * x + digitValue c) a

theorem bigVal_append (a : Nat) (l₁ l₂ : PyStr) :
    bigVal a (l₁ ++ l₂) = bigVal (bigVal a l₁) l₂ := by
  unfold bigVal
  rw [List.foldl_append]

theorem bigVal_replicate_zero (a k : Nat) :
    bigVal a (List.replicate k '0') = a * 10 ^ k := by
  induction k generalizing a with
  | zero => simp [bigVal]
  | succ k ih =>
    rw [List.replicate_succ]
    show bigVal (10 * a + digitValue '0') (List.replicate k '0') = a * 10 ^ (k + 1)
    rw [ih]
    have : digitValue '0' = 0 := by decide
    rw [this]
    ring

theorem bigVal_natDigitsStr : ∀ (n : Nat) (a : Nat),
    bigVal a (natDigitsStr n) = a * 10 ^ (natDigitsStr n).length + n := by
  intro n
  induction n using Nat.strong_induction_on with
  | _ n ih =>
    intro a
    conv_lhs => rw [natDigitsStr_eq]
    conv_rhs => rw [natDigitsStr_eq]
    by_cases h10 : n < 10
    · rw [if_pos h10]
      show 10 * a + digitValue (Char.ofNat (48 + n % 10)) = a * 10 ^ 1 + n
      rw [(digitCharMod n).2, Nat.mod_eq_of_lt h10]
      ring
    · rw [if_neg h10]
      rw [bigVal_append]
      rw [ih (n / 10) (Nat.div_lt_self (by omega) (by norm_num)) a]
      show 10 * (a * 10 ^ (natDigitsStr (n / 10)).length + n / 10)
          + digitValue (Char.ofNat (48 + n % 10)) = _
      rw [(digitCharMod n).2, List.length_append]
      have hmod := Nat.div_add_mod n 10
      simp only [List.length_singleton]
      ring_nf
      omega

theorem pyFloatAux_digits_nodot :
    ∀ (l rest : PyStr) (sd : Bool) (num scale : Nat),
      (∀ c ∈ l, isDigitChar c = true) →
      pyFloatAux (l ++ rest) sd false num scale
        = pyFloatAux rest (sd || !l.isEmpty) false (bigVal num l) scale := by
  intro l
  induction l with
  | nil =>
    intro rest sd num scale _
    simp [bigVal]
  | cons c cs ih =>
    intro rest sd num scale h
    have hc := h c (List.mem_cons_self c cs)
    have hdot := (isDigitChar_ne c hc).1
    have hstep : pyFloatAux (c :: (cs ++ rest)) sd false num scale
        = pyFloatAux (cs ++ rest) true false (10 * num + digitValue c) scale := by
      conv_lhs => unfold pyFloatAux
      rw [if_neg hdot, hc]
      simp
    rw [List.cons_append, hstep]
    rw [ih rest true (10 * num + digitValue c) scale (fun x hx => h x (List.mem_cons_of_mem c hx))]
    simp [bigVal]

theorem pyFloatAux_digits_dot :
    ∀ (l rest : PyStr) (sd : Bool) (num scale : Nat),
      (∀ c ∈ l, isDigitChar c = true) →
      pyFloatAux (l ++ rest) sd true num scale
        = pyFloatAux rest (sd || !l.isEmpty) true (bigVal num l) (scale + l.length) := by
  intro l
  induction l with
  | nil =>
    intro rest sd num scale _
    simp [bigVal]
  | cons c cs ih =>
    intro rest sd num scale h
    have hc := h c (List.mem_cons_self c cs)
    have hdot := (isDigitChar_ne c hc).1
    have hstep : pyFloatAux (c :: (cs ++ rest)) sd true num scale
        = pyFloatAux (cs ++ rest) true true (10 * num + digitValue c) (scale + 1) := by
      conv_lhs => unfold pyFloatAux
      rw [if_neg hdot, hc]
      simp
    rw [List.cons_append, hstep]
    rw [ih rest true (10 * num + digitValue c) (scale + 1)
      (fun x hx => h x (List.mem_cons_of_mem c hx))]
    have hsc : scale + 1 + cs.length = scale + (c :: cs).length := by
      simp
      omega
    rw [hsc]
    simp [bigVal]

/-- Every character the fixed-point renderer emits for a non-negative value
is a digit or the dot. -/
theorem serMilli_chars (n : Int) (hn : 0 ≤ n) :
    ∀ c ∈ serMilli n, isDigitChar c = true ∨ c = '.' := by
  intro c hc
  unfold serMilli at hc
  rw [if_neg (by omega)] at hc
  simp only [List.nil_append] at hc
  rcases List.mem_append.mp hc with h1 | h2
  · rcases List.mem_append.mp h1 with h3 | h4
    · rcases List.mem_append.mp h3 with h5 | h6
      · exact Or.inl (natDigitsStr_digits _ c h5)
      · exact Or.inr (List.mem_singleton.mp h6)
    · have : c = '0' := List.eq_of_mem_replicate h4
      rw [this]
      exact Or.inl (by decide)
  · exact Or.inl (natDigitsStr_digits _ c h2)

theorem serMilli_parse (n : Int) (hn : 0 ≤ n) :
    pyFloatOf (serMilli n) = some (mkRat n 1000) := by
  have hsign : serMilli n
      = natDigitsStr (n.natAbs / 1000)
        ++ ('.' :: (List.replicate (3 - (natDigitsStr (n.natAbs % 1000)).length) '0'
            ++ natDigitsStr (n.natAbs % 1000))) := by
    unfold serMilli
    rw [if_neg (by omega)]
    simp [List.append_assoc]
  cases hhead : natDigitsStr (n.natAbs / 1000) with
  | nil => exact absurd hhead (natDigitsStr_ne_nil _)
  | cons c cs =>
    have hcd : isDigitChar c = true := by
      apply natDigitsStr_digits (n.natAbs / 1000)
      rw [hhead]
      exact List.mem_cons_self c cs
    have hfacts := isDigitChar_ne c hcd
    rw [hsign, hhead]
    show pyFloatOf (c :: (cs ++ _)) = _
    conv_lhs => unfold pyFloatOf
    dsimp only
    rw [if_neg hfacts.2.2.1, if_neg hfacts.2.2.2.1]
    have hdigits : ∀ x ∈ c :: cs, isDigitChar x = true := by
      rw [← hhead]
      exact natDigitsStr_digits (n.natAbs / 1000)
    have h1 := pyFloatAux_digits_nodot (c :: cs)
      ('.' :: (List.replicate (3 - (natDigitsStr (n.natAbs % 1000)).length) '0'
        ++ natDigitsStr (n.natAbs % 1000))) false 0 0 hdigits
    rw [show (c :: cs) ++ ('.' :: (List.replicate (3 - (natDigitsStr (n.natAbs % 1000)).length) '0'
        ++ natDigitsStr (n.natAbs % 1000)))
      = c :: (cs ++ ('.' :: (List.replicate (3 - (natDigitsStr (n.natAbs % 1000)).length) '0'
        ++ natDigitsStr (n.natAbs % 1000)))) from rfl] at h1
    rw [h1]
    show pyFloatAux ('.' :: _) _ false _ 0 = _
    unfold pyFloatAux
    rw [if_pos rfl, if_neg Bool.false_ne_true]
    simp only [Bool.false_or]
    have hfrac : ∀ x ∈ List.replicate (3 - (natDigitsStr (n.natAbs % 1000)).length) '0'
        ++ natDigitsStr (n.natAbs % 1000), isDigitChar x = true := by
      intro x hx
      rcases List.mem_append.mp hx with h | h
      · rw [List.eq_of_mem_replicate h]
        decide
      · exact natDigitsStr_digits _ x h
    have h2 := pyFloatAux_digits_dot
      (List.replicate (3 - (natDigitsStr (n.natAbs % 1000)).length) '0'
        ++ natDigitsStr (n.natAbs % 1000)) [] (!(c :: cs).isEmpty)
      (bigVal 0 (c :: cs)) 0 hfrac
    rw [List.append_nil] at h2
    rw [h2]
    have hlen3 : (natDigitsStr (n.natAbs % 1000)).length ≤ 3 := by
      apply natDigitsStr_length_le 3 (n.natAbs % 1000) (by norm_num)
      have : n.natAbs % 1000 < 1000 := Nat.mod_lt _ (by norm_num)
      simpa using this
    have hlen : (List.replicate (3 - (natDigitsStr (n.natAbs % 1000)).length) '0'
        ++ natDigitsStr (n.natAbs % 1000)).length = 3 := by
      rw [List.length_append, List.length_replicate]
      omega
    have hval : bigVal (bigVal 0 (c :: cs))
        (List.replicate (3 - (natDigitsStr (n.natAbs % 1000)).length) '0'
          ++ natDigitsStr (n.natAbs % 1000)) = n.natAbs := by
      have hv0 : bigVal 0 (c :: cs) = n.natAbs / 1000 := by
        rw [← hhead]
        rw [bigVal_natDigitsStr]
        simp
      rw [bigVal_append, hv0, bigVal_replicate_zero, bigVal_natDigitsStr]
      have hmod := Nat.div_add_mod n.natAbs 1000
      have hpow : n.natAbs / 1000 * 10 ^ (3 - (natDigitsStr (n.natAbs % 1000)).length)
          * 10 ^ (natDigitsStr (n.natAbs % 1000)).length = n.natAbs / 1000 * 1000 := by
        rw [mul_assoc, ← pow_add]
        have : 3 - (natDigitsStr (n.natAbs % 1000)).length
            + (natDigitsStr (n.natAbs % 1000)).length = 3 := by omega
        rw [this]
        norm_num
      rw [hpow]
      omega
    show pyFloatAux [] _ true _ _ = _
    unfold pyFloatAux
    have htrue : (!(c :: cs).isEmpty
        || !(List.replicate (3 - (natDigitsStr (n.natAbs % 1000)).length) '0'
            ++ natDigitsStr (n.natAbs % 1000)).isEmpty) = true := by
      simp
    rw [htrue, if_pos rfl]
    rw [hval, hlen]
    rw [Int.natAbs_of_nonneg hn]
    norm_num

/-- Exported numeric cells survive strip and comma substitution and parse
back: the complete chain the importer applies to a price cell. -/
theorem serRat_parse (q : Rat) (hq : 0 < q) (hden : (q * 1000).den = 1) :
    pyStrip (serRat q) = serRat q ∧ serRat q ≠ [] ∧
    parse_float (some (serRat q)) none = some q := by
  have hfloor0 : (0 : Rat) ≤ q * 1000 := by positivity
  have hfloor : ((q * 1000).floor : Rat) = q * 1000 := by
    have hnum : ((q * 1000).num : Rat) = q * 1000 := (Rat.den_eq_one_iff _).mp hden
    rw [Rat.floor_def', hden]
    simpa using hnum
  have hnn : 0 ≤ (q * 1000).floor := by
    have : ((0 : Int) : Rat) ≤ ((q * 1000).floor : Rat) := by
      rw [hfloor]
      exact_mod_cast hfloor0
    exact_mod_cast this
  have hchars : ∀ c ∈ serRat q, isPySpace c = false ∧ c ≠ ',' := by
    intro c hc
    rcases serMilli_chars (q * 1000).floor hnn c hc with hd | hdot
    · exact ⟨(isDigitChar_ne c hd).2.2.2.2, (isDigitChar_ne c hd).2.1⟩
    · rw [hdot]
      exact ⟨by decide, by decide⟩
  have hstrip : pyStrip (serRat q) = serRat q :=
    pyStrip_eq_self _ (fun c hc => (hchars c hc).1)
  have hne : serRat q ≠ [] := by
    unfold serRat serMilli
    by_cases hs : (q * 1000).floor < 0
    · rw [if_pos hs]
      exact List.cons_ne_nil _ _
    · rw [if_neg hs]
      simp only [List.nil_append]
      intro hcontra
      exact natDigitsStr_ne_nil _ (List.append_eq_nil.mp
        (List.append_eq_nil.mp (List.append_eq_nil.mp hcontra).1).1).1
  have hparse : parse_float (some (serRat q)) none = some q := by
    unfold parse_float
    dsimp only
    rw [if_neg hne, hstrip]
    rw [pyReplaceCommaDot_eq_self _ (fun c hc => (hchars c hc).2)]
    unfold serRat
    rw [serMilli_parse _ hnn]
    have hqval : mkRat (q * 1000).floor 1000 = q := by
      rw [Rat.mkRat_eq_div]
      rw [hfloor]
      field_simp
    show some (mkRat (q * 1000).floor 1000) = some q
    rw [hqval]
  exact ⟨hstrip, hne, hparse⟩

/-- The per-row precondition under which the row loop classifies a row as an
update of an existing item: not blank, valid SKU, Name and Selling Price
cells, a resolvable location, and a SKU already present in the catalog. -/
def rowGoodFor (user_loc : Option Id) (locs : List Location) (skus : List PyStr)
    (r : CsvRow) : Prop :=
  rowIsBlank r = false ∧
  pyStrip (cellGetD r.sku) ≠ [] ∧
  pyStrip (cellGetD r.name) ≠ [] ∧
  pyStrip (cellGetD r.selling_price) ≠ [] ∧
  (∃ sp : Rat, 0 < sp ∧
    parse_float (some (pyStrip (cellGetD r.selling_price))) none = some sp) ∧
  (∃ lid, resolveLocation locs user_loc r.location = some lid) ∧
  pyStrip (cellGetD r.sku) ∈ skus

/-- A SKU present among the catalog's SKUs is found by the importer's
exact-match lookup. -/
theorem find?_sku_of_mem (l : List InventoryItem) (s : PyStr)
    (h : s ∈ l.map (fun x => x.sku)) :
    ∃ item, l.find? (fun it => it.sku == s) = some item := by
  have hsome : (l.find? (fun it => it.sku == s)).isSome := by
    rcases List.mem_map.mp h with ⟨x, hx, hs⟩
    exact (List.find?_isSome).mpr ⟨x, hx, by simp [hs]⟩
  exact Option.isSome_iff_exists.mp hsome

/-- Writing back an item whose target id occurs nowhere in the list leaves
the list unchanged. -/
theorem map_update_of_no_id (itemNew : InventoryItem) (i : Id) :
    ∀ (l : List InventoryItem), (∀ x ∈ l, x.id ≠ i) →
      l.map (fun x => if x.id == i then itemNew else x) = l := by
  intro l
  induction l with
  | nil => intro _; rfl
  | cons b bs ih =>
    intro h
    have hb : b.id ≠ i := h b (List.mem_cons_self b bs)
    simp only [List.map_cons]
    rw [if_neg (by simp [hb]), ih (fun x hx => h x (List.mem_cons_of_mem b hx))]

/-- setItem with an item carrying the id and sku of a stored item preserves
the catalog's (id, sku) skeleton when ids are unique. -/
theorem map_idsku_setItem (item itemNew : InventoryItem)
    (hid : itemNew.id = item.id) (hsku : itemNew.sku = item.sku) :
    ∀ (l : List InventoryItem), (l.map (fun x => x.id)).Nodup → item ∈ l →
      (l.map (fun x => if x.id == item.id then itemNew else x)).map
          (fun x => (x.id, x.sku))
        = l.map (fun x => (x.id, x.sku)) := by
  intro l
  induction l with
  | nil => intro _ hmem; exact absurd hmem (List.not_mem_nil item)
  | cons b bs ih =>
    intro hnd hmem
    simp only [List.map_cons, List.nodup_cons] at hnd
    rcases List.mem_cons.mp hmem with hb | hbs
    · subst hb
      have hne : ∀ x ∈ bs, x.id ≠ item.id := by
        intro x hx hxid
        apply hnd.1
        rw [← hxid]
        exact List.mem_map_of_mem _ hx
      simp only [List.map_cons]
      rw [if_pos (by simp)]
      rw [map_update_of_no_id itemNew item.id bs hne]
      rw [hid, hsku]
    · have hbne : (b.id == item.id) = false := by
        simp only [beq_eq_false_iff_ne]
        intro hcon
        apply hnd.1
        rw [hcon]
        exact List.mem_map_of_mem _ hbs
      simp only [List.map_cons, hbne, Bool.false_eq_true, if_false]
      rw [ih hnd.2 hbs]

/-- A good row is classified as an update: it bumps updated_count by one,
appends no error, creates no item, and preserves the location table and the
(id, sku) skeleton of the catalog. -/
theorem csv_import_row_good (user_loc : Option Id) (idx : Nat)
    (st : BulkImportState) (row : CsvRow)
    (hndst : (st.db.items.map (fun x => x.id)).Nodup)
    (hgood : rowGoodFor user_loc st.db.locations (st.db.items.map (fun x => x.sku)) row) :
    (csv_import_row user_loc idx st row).db.locations = st.db.locations ∧
    (csv_import_row user_loc idx st row).db.items.map (fun x => (x.id, x.sku))
      = st.db.items.map (fun x => (x.id, x.sku)) ∧
    (csv_import_row user_loc idx st row).n_imported = st.n_imported ∧
    (csv_import_row user_loc idx st row).n_updated = st.n_updated + 1 ∧
    (csv_import_row user_loc idx st row).errors = st.errors := by
  unfold rowGoodFor at hgood
  obtain ⟨hnb, hskune, hname, hspne, ⟨sp, hsppos, hsp⟩, ⟨lid, hloc⟩, hskumem⟩ := hgood
  obtain ⟨item, hfind⟩ := find?_sku_of_mem st.db.items _ hskumem
  have hitemmem : item ∈ st.db.items := List.mem_of_find?_eq_some hfind
  have hskueq : item.sku = pyStrip (cellGetD row.sku) := by
    have hp := List.find?_some hfind
    simpa using hp
  have hstep : csv_import_row user_loc idx st row
      = { st with
          db := setItem st.db
            { item with
              sku := pyStrip (cellGetD row.sku)
              barcode := pyOrNone row.barcode
              name := pyStrip (cellGetD row.name)
              description := pyOrNone row.description
              category_id :=
                (match (if pyLower (pyStrip (cellGetD row.category)) = [] then none
                    else dictLookupCat st.db.categories (pyLower (pyStrip (cellGetD row.category)))) with
                  | some c => some c
                  | none => item.category_id)
              location_id := lid
              supplier_id :=
                (match (if pyLower (pyStrip (cellGetD row.supplier)) = [] then none
                    else dictLookupSup st.db.suppliers (pyLower (pyStrip (cellGetD row.supplier)))) with
                  | some s => some s
                  | none => item.supplier_id)
              current_stock := (parse_float row.stock (some 0)).getD 0
              min_stock_level :=
                (match parse_float row.min_stock none with
                  | some v => some v
                  | none => item.min_stock_level)
              cost_price :=
                (match parse_float row.cost_price none with
                  | some v => some v
                  | none => item.cost_price)
              selling_price := sp
              unit := pyStrip (pyOrStr row.unit (pystr "pcs")) }
          n_updated := st.n_updated + 1 } := by
    unfold csv_import_row
    rw [hnb]
    simp only [Bool.false_eq_true, if_false]
    rw [if_neg hskune, if_neg hname, if_neg hspne, hsp]
    dsimp only
    rw [if_neg (not_le.mpr hsppos), hloc]
    dsimp only
    rw [hfind]
  rw [hstep]
  dsimp only [setItem]
  refine ⟨rfl, ?_, rfl, rfl, rfl⟩
  refine map_idsku_setItem item _ ?_ ?_ st.db.items hndst hitemmem
  · rfl
  · exact hskueq.symm

/-- Running the row loop over rows that are all good for the starting
catalog counts one update per row, creates nothing and reports no error. -/
theorem csv_import_rows_good (user_loc : Option Id) (db0 : Db) :
    ∀ (rows : List CsvRow) (st : BulkImportState) (idx : Nat),
      st.db.locations = db0.locations →
      st.db.items.map (fun x => (x.id, x.sku)) = db0.items.map (fun x => (x.id, x.sku)) →
      (db0.items.map (fun x => x.id)).Nodup →
      (∀ r ∈ rows, rowGoodFor user_loc db0.locations (db0.items.map (fun x => x.sku)) r) →
      (csv_import_rows user_loc st idx rows).n_imported = st.n_imported ∧
      (csv_import_rows user_loc st idx rows).n_updated = st.n_updated + rows.length ∧
      (csv_import_rows user_loc st idx rows).errors = st.errors := by
  intro rows
  induction rows with
  | nil =>
    intro st idx _ _ _ _
    exact ⟨rfl, rfl, rfl⟩
  | cons r rest ih =>
    intro st idx hloc hskel hnd0 hgood
    have hskus : st.db.items.map (fun x => x.sku) = db0.items.map (fun x => x.sku) := by
      have h1 := congrArg (List.map (fun p : Id × PyStr => p.2)) hskel
      rw [List.map_map, List.map_map] at h1
      exact h1
    have hids : st.db.items.map (fun x => x.id) = db0.items.map (fun x => x.id) := by
      have h1 := congrArg (List.map (fun p : Id × PyStr => p.1)) hskel
      rw [List.map_map, List.map_map] at h1
      exact h1
    have hndst : (st.db.items.map (fun x => x.id)).Nodup := by
      rw [hids]
      exact hnd0
    have hgr : rowGoodFor user_loc st.db.locations (st.db.items.map (fun x => x.sku)) r := by
      rw [hloc, hskus]
      exact hgood r (List.mem_cons_self r rest)
    obtain ⟨hl1, hl2, hl3, hl4, hl5⟩ := csv_import_row_good user_loc idx st r hndst hgr
    obtain ⟨g1, g2, g3⟩ := ih (csv_import_row user_loc idx st r) (idx + 1)
      (hl1.trans hloc) (hl2.trans hskel) hnd0
      (fun x hx => hgood x (List.mem_cons_of_mem r hx))
    refine ⟨?_, ?_, ?_⟩
    · show (csv_import_rows user_loc (csv_import_row user_loc idx st r) (idx + 1) rest).n_imported
        = st.n_imported
      rw [g1, hl3]
    · show (csv_import_rows user_loc (csv_import_row user_loc idx st r) (idx + 1) rest).n_updated
        = st.n_updated + (r :: rest).length
      rw [g2, hl4, List.length_cons]
      omega
    · show (csv_import_rows user_loc (csv_import_row user_loc idx st r) (idx + 1) rest).errors
        = st.errors
      rw [g3, hl5]

/-- Each exported row comes from an active stored item together with its
resolved location row. -/
theorem export_mem (db : Db) (r : CsvRow)
    (hr : r ∈ inventory_csv_export db none) :
    ∃ it loc, it ∈ db.items ∧ it.is_active = true ∧
      db.locations.find? (fun l => l.id == it.location_id) = some loc ∧
      r = exportRow db it loc := by
  unfold inventory_csv_export at hr
  rcases List.mem_filterMap.mp hr with ⟨it, hit, hf⟩
  dsimp only at hf
  simp only [Bool.and_true] at hf
  by_cases hact : it.is_active = true
  · rw [if_pos hact] at hf
    cases hfind : db.locations.find? (fun l => l.id == it.location_id) with
    | none =>
      rw [hfind] at hf
      exact Option.noConfusion hf
    | some loc =>
      rw [hfind] at hf
      dsimp only at hf
      exact ⟨it, loc, hit, hact, hfind, (Option.some.inj hf).symm⟩
  · rw [if_neg hact] at hf
    exact Option.noConfusion hf

/-- Lengths of filterMap and filter agree when the partial map succeeds
exactly on the elements the predicate keeps. -/
theorem filterMap_length_eq_filter_length {α β : Type} (f : α → Option β) (p : α → Bool) :
    ∀ l : List α, (∀ a ∈ l, (f a).isSome = p a) →
      (l.filterMap f).length = (l.filter p).length := by
  intro l
  induction l with
  | nil => intro _; rfl
  | cons b bs ih =>
    intro h
    have hb := h b (List.mem_cons_self b bs)
    rw [List.filterMap_cons, List.filter_cons]
    cases hfb : f b with
    | none =>
      rw [hfb] at hb
      simp only [Option.isSome_none] at hb
      rw [← hb]
      simp only [Bool.false_eq_true, if_false]
      exact ih (fun a ha => h a (List.mem_cons_of_mem b ha))
    | some y =>
      rw [hfb] at hb
      simp only [Option.isSome_some] at hb
      rw [← hb, if_pos rfl]
      simp only [List.length_cons]
      rw [ih (fun a ha => h a (List.mem_cons_of_mem b ha))]

/-- With every active item's location row present, the unfiltered export has
one row per active item. -/
theorem export_length (db : Db)
    (hfound : ∀ it ∈ db.items, it.is_active = true →
      (db.locations.find? (fun l => l.id == it.location_id)).isSome) :
    (inventory_csv_export db none).length
      = (db.items.filter (fun it => it.is_active)).length := by
  unfold inventory_csv_export
  apply filterMap_length_eq_filter_length
  intro it hit
  dsimp only
  simp only [Bool.and_true]
  by_cases hact : it.is_active = true
  · obtain ⟨loc, hloc⟩ := Option.isSome_iff_exists.mp (hfound it hit hact)
    rw [hact, if_pos rfl, hloc]
    rfl
  · have hact' : it.is_active = false := by
      cases hb : it.is_active
      · rfl
      · exact absurd hb hact
    rw [hact', if_neg Bool.false_ne_true]
    rfl

/-- On a well-formed catalog — strip-clean non-empty SKUs, non-blank names,
positive prices of at most three decimals, strip-clean non-empty location
names — every exported row satisfies the update precondition. -/
theorem export_rows_good (db : Db)
    (hitems : ∀ it ∈ db.items, it.is_active = true →
      pyStrip it.sku = it.sku ∧ it.sku ≠ [] ∧ pyStrip it.name ≠ [] ∧
      0 < it.selling_price ∧ (it.selling_price * 1000).den = 1)
    (hlocs : ∀ l ∈ db.locations, pyStrip l.name = l.name ∧ l.name ≠ []) :
    ∀ r ∈ inventory_csv_export db none,
      rowGoodFor none db.locations (db.items.map (fun x => x.sku)) r := by
  intro r hr
  obtain ⟨it, loc, hit, hact, hfind, rfl⟩ := export_mem db r hr
  obtain ⟨hsclean, hskune, hnamene, hsppos, hden⟩ := hitems it hit hact
  obtain ⟨hstripSP, hspne, hparse⟩ := serRat_parse it.selling_price hsppos hden
  have hlocmem : loc ∈ db.locations := List.mem_of_find?_eq_some hfind
  obtain ⟨hlocclean, hlocne⟩ := hlocs loc hlocmem
  unfold rowGoodFor
  refine ⟨?_, ?_, ?_, ?_, ⟨it.selling_price, hsppos, ?_⟩, ?_, ?_⟩
  · unfold rowIsBlank rowCells exportRow
    dsimp only
    simp only [List.all_cons]
    rw [hsclean]
    simp [hskune]
  · show pyStrip it.sku ≠ []
    rw [hsclean]
    exact hskune
  · show pyStrip it.name ≠ []
    exact hnamene
  · show pyStrip (serRat it.selling_price) ≠ []
    rw [hstripSP]
    exact hspne
  · show parse_float (some (pyStrip (serRat it.selling_price))) none = some it.selling_price
    rw [hstripSP]
    exact hparse
  · have hdict : ∃ lid, dictLookupLoc db.locations (pyLower loc.name) = some lid := by
      unfold dictLookupLoc
      have hmem : loc ∈ db.locations.reverse := List.mem_reverse.mpr hlocmem
      have hsome : (db.locations.reverse.find?
          (fun l => pyLower l.name == pyLower loc.name)).isSome :=
        (List.find?_isSome).mpr ⟨loc, hmem, by simp⟩
      obtain ⟨x, hx⟩ := Option.isSome_iff_exists.mp hsome
      exact ⟨x.id, by rw [hx]; rfl⟩
    obtain ⟨lid, hlid⟩ := hdict
    refine ⟨lid, ?_⟩
    unfold resolveLocation
    dsimp only
    rw [show pyStrip (cellGetD (exportRow db it loc).location) = loc.name from hlocclean]
    have hlne : ¬ pyLower loc.name = [] := by
      intro hcon
      exact hlocne (by simpa [pyLower] using hcon)
    rw [if_neg hlne, hlid]
  · show pyStrip it.sku ∈ db.items.map (fun x => x.sku)
    rw [hsclean]
    exact List.mem_map_of_mem _ hit

/-- C8: re-importing an unmodified CSV export of a well-formed catalog
(unique item ids; active items carry strip-clean non-empty SKUs, non-blank
names, positive selling prices with at most three decimals, and an existing
location; location names strip-clean and non-empty) classifies every
exported row as an update: updated_count equals the number of active items,
imported_count is 0 and the errors list is empty. -/
theorem c8_export_reimport_all_updates (db : Db)
    (hnd : (db.items.map (fun x => x.id)).Nodup)
    (hitems : ∀ it ∈ db.items, it.is_active = true →
      pyStrip it.sku = it.sku ∧ it.sku ≠ [] ∧ pyStrip it.name ≠ [] ∧
      0 < it.selling_price ∧ (it.selling_price * 1000).den = 1)
    (hlocs : ∀ l ∈ db.locations, pyStrip l.name = l.name ∧ l.name ≠ [])
    (hfound : ∀ it ∈ db.items, it.is_active = true →
      (db.locations.find? (fun l => l.id == it.location_id)).isSome) :
    (inventory_csv_import db none (inventory_csv_export db none)).1.n_updated
        = (db.items.filter (fun it => it.is_active)).length ∧
    (inventory_csv_import db none (inventory_csv_export db none)).1.n_imported = 0 ∧
    (inventory_csv_import db none (inventory_csv_export db none)).1.errors = [] := by
  obtain ⟨h1, h2, h3⟩ := csv_import_rows_good none db (inventory_csv_export db none)
    { db := db, n_imported := 0, n_updated := 0, errors := [] } 2 rfl rfl hnd
    (export_rows_good db hitems hlocs)
  refine ⟨?_, ?_, ?_⟩
  · refine h2.trans ?_
    show 0 + (inventory_csv_export db none).length
      = (db.items.filter (fun it => it.is_active)).length
    rw [Nat.zero_add, export_length db hfound]
  · exact h1.trans rfl
  · exact h3.trans rfl

/-- A one-item, one-location catalog meeting the well-formedness conditions
of the round-trip theorem. -/
def dbC8 : Db :=
  { emptyDb with
    items := [baseItem]
    locations := [{ id := 1, name := pystr "Main Store" }] }

theorem c8_witness :
    (inventory_csv_import dbC8 none (inventory_csv_export dbC8 none)).1.n_updated
        = (dbC8.items.filter (fun it => it.is_active)).length ∧
    (inventory_csv_import dbC8 none (inventory_csv_export dbC8 none)).1.n_imported = 0 ∧
    (inventory_csv_import dbC8 none (inventory_csv_export dbC8 none)).1.errors = [] :=
  c8_export_reimport_all_updates dbC8 (by decide) (by decide) (by decide) (by decide)

end Sparkle
